import Mathlib

/-!
# upload2s3: a shallow embedding of `index.js`

The development has three layers, each translated from the JavaScript source.

* Pure helpers: `Buffer.slice`, the chunk loop of `_multipartUpload`, property
  assignment on a headers object, the completion document built by `finish`.
* The orchestrator (`upload`, `_singleUpload`, `_multipartUpload`): the nested
  callbacks of the source are defunctionalised, one constructor of `Cont` per
  callback, and `deliver` runs the callback of the request in flight on the
  arguments `_request` hands to it, for the runs in which every `_request` call
  reports once; `invoke` and `runReports` run a callback on every report.
* The executor (`_request`): one retry operation with its attempts, driven by
  the events the transport and the timers deliver (`step`), in any order.

The retry scheduler and the XML parser are parameters (`Collaborators`). The
calls of `this.debug` only log and are left out. JavaScript truthiness is kept
where the source tests it: `if (err)`, `if (content)`, `headers || {}`.
-/

namespace S3Upload

/-! ## Values -/

/-- A Node `Buffer`: a sequence of bytes. -/
abbrev Buffer := List UInt8

/-- The literal `5 * 1024 * 1024` used by `upload` and by the chunk loop. -/
def partSize : Nat := 5 * 1024 * 1024

/-- `Math.ceil(a / b)` on non-negative integers (the quotient of two integers
below `2^53` by `b = 5 * 2^20` is far enough from the next integer for the
floating point division to round correctly, so this is the value JavaScript
computes for every buffer length). -/
def ceilDiv (a b : Nat) : Nat := (a + b - 1) / b

/-- `buffer.slice(start, end)` for non-negative `start` and `end`: the bytes at
positions `start ≤ p < min end length`. -/
def slice (buffer : Buffer) (start stop : Nat) : Buffer :=
  (buffer.take stop).drop start

/-- The chunk loop of `_multipartUpload` for a part size `size`:
`for (i = 0; i < Math.ceil(buffer.length / size); i++)
   chunks.push(buffer.slice(i * size, Math.min(buffer.length, (i + 1) * size)))`. -/
def chunksWith (size : Nat) (buffer : Buffer) : List Buffer :=
  (List.range (ceilDiv buffer.length size)).foldl
    (fun chunks i =>
      chunks ++ [slice buffer (i * size) (min buffer.length ((i + 1) * size))])
    []

/-- The `chunks` array of `_multipartUpload`: the chunk loop at `5 * 1024 * 1024`. -/
def chunkLoop (buffer : Buffer) : List Buffer :=
  chunksWith partSize buffer

/-- A header value as written by the source: a string, or a number
(`buffer.length`, `slice.length`). -/
inductive HeaderValue where
  | str (s : String)
  | num (n : Nat)
  deriving DecidableEq, Repr

/-- A JavaScript object used as a headers mapping: its own properties in
insertion order, at most one entry per key. -/
abbrev Headers := List (String × HeaderValue)

/-- Property assignment `obj[key] = value`: an existing property keeps its place
and takes the new value, a new property is added at the end. -/
def setProp : Headers → String → HeaderValue → Headers
  | [], key, value => [(key, value)]
  | (k, v) :: rest, key, value =>
    if k = key then (k, value) :: rest else (k, v) :: setProp rest key value

/-- Property read `obj[key]` (`none` stands for `undefined`). -/
def getProp : Headers → String → Option HeaderValue
  | [], _ => none
  | (k, v) :: rest, key => if k = key then some v else getProp rest key

/-- The values `_request` can pass as the `err` argument of its callback: the
buffered body text of a non-200 response, the `ETIMEDOUT` error made by
`timeoutCallback`, an error reported by the transport, an error reported by the
XML parser. -/
inductive ErrVal where
  | body (xml : String)
  | timedOut
  | transport (message : String)
  | parseFailure (message : String)
  deriving DecidableEq, Repr

/-- JavaScript truthiness of an error value: a string is falsy exactly when it
is empty, an `Error` object is always truthy. -/
def ErrVal.truthy : ErrVal → Bool
  | .body xml => xml != ""
  | .timedOut => true
  | .transport _ => true
  | .parseFailure _ => true

/-- The response object as far as the source reads it: `res.statusCode` and
`res.headers.etag` (`none` when the header is missing). -/
structure Response where
  statusCode : Nat
  etag : Option String
  deriving DecidableEq, Repr

/-- The object produced by the XML parser as far as the source reads it:
`uploadId` is the value of `xml.InitiateMultipartUploadResult.UploadId[0]`,
`none` when evaluating that path throws. -/
structure ParsedXml where
  uploadId : Option String
  deriving DecidableEq, Repr

/-- The `content` argument of `_request`: `null`, a buffer, or a string. -/
inductive Content where
  | null
  | buffer (b : Buffer)
  | text (s : String)
  deriving DecidableEq, Repr

/-- Truthiness of `content` in `if (content)`: `null` and the empty string are
falsy, every buffer is an object and so truthy. -/
def Content.truthy : Content → Bool
  | .null => false
  | .buffer _ => true
  | .text s => s != ""

/-- HTTP methods used by the source. -/
inductive Method where
  | PUT
  | POST
  | DELETE
  deriving DecidableEq, Repr

/-- The arguments of one call `_request(method, url, headers, content, cb)`,
the callback apart. -/
structure Request where
  method : Method
  url : String
  headers : Headers
  content : Content
  deriving DecidableEq, Repr

/-- The arguments of a callback call `cb(err, res, xml)`; `none` stands for
`null` or a missing argument. -/
structure CbArgs where
  err : Option ErrVal
  res : Option Response
  xml : Option ParsedXml
  deriving DecidableEq, Repr

/-- The call `cb(err)` made by `errorHandler`. -/
def CbArgs.failure (err : ErrVal) : CbArgs :=
  { err := some err, res := none, xml := none }

/-- The call `cb(null, res, parsedXml)` made by the response handler. -/
def CbArgs.success (res : Response) (xml : ParsedXml) : CbArgs :=
  { err := none, res := some res, xml := some xml }

/-- String conversion of a value that may be `undefined`, as done by `+`. -/
def jsString : Option String → String
  | none => "undefined"
  | some s => s

/-! ## `encodeURIComponent` -/

/-- The characters `encodeURIComponent` leaves alone: ASCII letters, digits and
`- _ . ! ~ * ' ( )`. -/
def uriUnreserved (c : Char) : Bool :=
  c.isAlphanum || [45, 95, 46, 33, 126, 42, 39, 40, 41].contains c.toNat

/-- One upper-case hexadecimal digit. -/
def hexDigit (n : Nat) : Char :=
  if n < 10 then Char.ofNat (48 + n) else Char.ofNat (55 + n)

/-- The escape `%XX` of one byte. -/
def percentByte (b : UInt8) : String :=
  String.mk [Char.ofNat 37, hexDigit (b.toNat / 16), hexDigit (b.toNat % 16)]

/-- The built-in `encodeURIComponent` on a well-formed string: every character
outside the unreserved set is replaced by the escapes of its UTF-8 bytes. -/
def encodeURIComponent (s : String) : String :=
  String.join (s.toList.map fun c =>
    if uriUnreserved c then String.singleton c
    else String.join ((String.utf8EncodeChar c).map percentByte))

/-! ## The orchestrator -/

/-- The caller's side of one `upload(buffer, key, headers, cb)` call: the three
values the caller holds. `headers` is `none` when the caller passes no object
(`undefined` or `null`), otherwise the current properties of the object the
caller passed. -/
structure UploadRequest where
  payload : Buffer
  key : String
  headers : Option Headers
  deriving DecidableEq, Repr

/-- The callback of the `_request` in flight. `caller` is `cb` itself (single
upload), `initiate` the function at line 37, `part i` the function at line 66
inside `uploadChunk(i)`, `complete` the function at line 89, `cleanup err` the
function at line 53 inside `cleanup(err)`. -/
inductive Cont where
  | caller
  | initiate
  | part (i : Nat)
  | complete
  | cleanup (err : ErrVal)
  deriving DecidableEq, Repr

/-- The state of one `upload` call. -/
structure MState where
  /-- The caller's values, as they are now. -/
  caller : UploadRequest
  /-- The closure variable `upload_id`. -/
  upload_id : String
  /-- The closure variable `chunks`. -/
  chunks : List Buffer
  /-- The closure variable `etags`. -/
  etags : List (Option String)
  /-- The callback of the `_request` in flight, if one is. -/
  pending : Option Cont
  /-- Every `_request` call made so far, oldest first. -/
  requests : List Request
  /-- Every call of the caller's `cb` made so far, oldest first. -/
  callbacks : List CbArgs
  /-- Whether a callback has thrown a `TypeError`. -/
  crashed : Bool
  deriving DecidableEq, Repr

/-- The document built by `finish` from `etags`. -/
def completeBody (etags : List (Option String)) : String :=
  let body := "<?xml version=\"1.0\" encoding=\"UTF-8\"?>\n<CompleteMultipartUpload>\n"
  let body := (List.range etags.length).foldl
    (fun body i =>
      (((body ++ "\t<Part>\n")
        ++ ("\t\t<PartNumber>" ++ toString (i + 1) ++ "</PartNumber>\n"))
        ++ ("\t\t<ETag>\"" ++ jsString (etags.getD i none) ++ "\"</ETag>\n"))
        ++ "\t</Part>\n")
    body
  body ++ "</CompleteMultipartUpload>"

/-- The headers object of `_singleUpload` after `headers = headers || {}` and
the two assignments `headers.Expect = ...`, `headers['Content-Length'] = ...`. -/
def singleHeaders (u : UploadRequest) : Headers :=
  let headers := u.headers.getD []
  let headers := setProp headers "Expect" (.str "100-continue")
  setProp headers "Content-Length" (.num u.payload.length)

/-- The arguments of the call `this._request('PUT', key, headers, buffer, cb)`
made by `_singleUpload`. -/
def singleRequest (u : UploadRequest) : Request :=
  { method := .PUT, url := u.key, headers := singleHeaders u, content := .buffer u.payload }

/-- The function `_singleUpload`. `headers = headers || {}` makes `headers` the
caller's object when one was passed, and a fresh object otherwise; the two
assignments write into that object, so a caller's object is changed by them. -/
def _singleUpload (u : UploadRequest) : MState :=
  { caller := { u with headers := u.headers.map fun _ => singleHeaders u }
    upload_id := ""
    chunks := []
    etags := []
    pending := some .caller
    requests := [singleRequest u]
    callbacks := []
    crashed := false }

/-- The function `_multipartUpload` up to its first `_request` call. -/
def _multipartUpload (u : UploadRequest) : MState :=
  { caller := u
    upload_id := ""
    chunks := []
    etags := []
    pending := some .initiate
    requests := [{ method := .POST, url := u.key ++ "?uploads",
                   headers := u.headers.getD [], content := .null }]
    callbacks := []
    crashed := false }

/-- The function `upload`. -/
def upload (u : UploadRequest) : MState :=
  if u.payload.length < 5 * 1024 * 1024 then _singleUpload u else _multipartUpload u

/-- A `TypeError` thrown inside a callback: nothing is in flight any more and
nothing further runs. -/
def throwTypeError (s : MState) : MState :=
  { s with pending := none, crashed := true }

/-- A call of the caller's `cb`. -/
def callCb (s : MState) (args : CbArgs) : MState :=
  { s with pending := none, callbacks := s.callbacks ++ [args] }

/-- The inner function `cleanup(err)`. -/
def cleanup (s : MState) (err : ErrVal) : MState :=
  { s with
    pending := some (.cleanup err)
    requests := s.requests ++
      [{ method := .DELETE, url := s.caller.key ++ "?&uploadId=" ++ s.upload_id,
         headers := [], content := .null }] }

/-- The inner function `uploadChunk(i)`: `chunks[i]` is `undefined` past the end
of the array, and reading its `length` then throws. -/
def uploadChunk (s : MState) (i : Nat) : MState :=
  match s.chunks[i]? with
  | none => throwTypeError s
  | some slice =>
    { s with
      pending := some (.part i)
      requests := s.requests ++
        [{ method := .PUT,
           url := s.caller.key ++ "?partNumber=" ++ toString (i + 1) ++ "&uploadId="
                    ++ s.upload_id,
           headers := [("Content-Length", .num slice.length)],
           content := .buffer slice }] }

/-- The inner function `finish()`. -/
def finish (s : MState) : MState :=
  { s with
    pending := some .complete
    requests := s.requests ++
      [{ method := .POST, url := s.caller.key ++ "?uploadId=" ++ s.upload_id,
         headers := [], content := .text (completeBody s.etags) }] }

/-- The error for which the test `if (err)` passes, if it passes. -/
def truthyErr (err : Option ErrVal) : Option ErrVal :=
  err.filter ErrVal.truthy

/-- The callback of the initiate request (lines 37 to 98). -/
def onInitiate (s : MState) (args : CbArgs) : MState :=
  match truthyErr args.err with
  | some e => callCb s { err := some e, res := none, xml := none }
  | none =>
    match args.xml.bind fun x => x.uploadId with
    | none => throwTypeError s
    | some id =>
      let s := { s with upload_id := encodeURIComponent id,
                        chunks := chunkLoop s.caller.payload,
                        etags := [] }
      uploadChunk s 0

/-- The callback of the request of part `i` (lines 66 to 73): reading
`res.headers` throws when `res` is `undefined`. The test `i == chunks.length - 1`
over the integers is `i + 1 = chunks.length` over the naturals. -/
def onPart (s : MState) (i : Nat) (args : CbArgs) : MState :=
  match truthyErr args.err with
  | some e => cleanup s e
  | none =>
    match args.res with
    | none => throwTypeError s
    | some res =>
      let s := { s with etags := s.etags ++ [res.etag] }
      if i + 1 = s.chunks.length then finish s else uploadChunk s (i + 1)

/-- The callback of the completion request (lines 89 to 94). -/
def onComplete (s : MState) (args : CbArgs) : MState :=
  match truthyErr args.err with
  | some e => cleanup s e
  | none => callCb s { err := none, res := args.res, xml := none }

/-- The callback `k` runs on the arguments `args`. In the source each callback is
a closure handed to its own `_request` call, and it runs every time `_request`
calls it, whatever else has happened since. -/
def invoke (s : MState) : Cont → CbArgs → MState
  | .caller, args => callCb s args
  | .initiate, args => onInitiate s args
  | .part i, args => onPart s i args
  | .complete, args => onComplete s args
  | .cleanup err, _ => callCb s { err := some err, res := none, xml := none }

/-- The state after the callbacks named in `reports` ran, in order, each on the
arguments reported to it. -/
def runReports (s : MState) (reports : List (Cont × CbArgs)) : MState :=
  reports.foldl (fun s r => invoke s r.1 r.2) s

/-- The special case in which every `_request` call reports exactly once: the
callback that runs is the one of the latest request, and a report that arrives
with nothing in flight is not delivered. Runs in which a `_request` call reports
twice are not of this form; they are runs of `runReports`. -/
def deliver (s : MState) (args : CbArgs) : MState :=
  match s.pending with
  | none => s
  | some k => invoke s k args

/-- The state after the exchanges of the `upload` call have reported `outcomes`,
in the order the requests were made, each exchange reporting exactly once. -/
def run (s : MState) (outcomes : List CbArgs) : MState :=
  outcomes.foldl deliver s

/-! ## The executor -/

/-- The external collaborators of `_request`. -/
structure Collaborators where
  /-- The parser `xml2js.parseString`: its error, or the parsed object. -/
  parseString : String → Except String ParsedXml
  /-- The call `operation.retry(err)`: whether a further attempt was scheduled,
  given the number of earlier `retry` calls of the operation. -/
  retry : Nat → ErrVal → Bool

/-- The closure variables of one attempt: `handledError`, and whether
`timeoutTimer` is still due (set, and neither fired nor cleared). -/
structure Attempt where
  handledError : Bool
  timerDue : Bool
  deriving DecidableEq, Repr

/-- What the runtime can deliver to attempt number `a`: the manual timer fires,
the transport calls the hook given to `req.setTimeout`, the request emits
`error`, the response stream emits `end` after the body text `xml` was
buffered. -/
inductive Event where
  | timer (a : Nat)
  | transportTimeout (a : Nat)
  | error (a : Nat) (message : String)
  | responseEnd (a : Nat) (res : Response) (xml : String)
  deriving DecidableEq, Repr

/-- The calls an attempt makes on its collaborators and on `cb`. -/
inductive Effect where
  | knoxRequest (a : Nat) (method : Method) (url : String) (headers : Headers)
  | reqWrite (a : Nat) (content : Content)
  | reqEnd (a : Nat)
  | reqAbort (a : Nat)
  | clearTimeout (a : Nat)
  | retry (a : Nat) (err : ErrVal) (again : Bool)
  | cb (a : Nat) (args : CbArgs)
  deriving DecidableEq, Repr

/-- The state of one `_request` call. -/
structure OpState where
  /-- The arguments of the call. -/
  request : Request
  /-- The attempts started so far, oldest first. -/
  attempts : List Attempt
  /-- The number of `operation.retry` calls made so far. -/
  retries : Nat
  /-- Every effect so far, oldest first. -/
  log : List Effect
  deriving DecidableEq, Repr

/-- The function given to `operation.attempt` (lines 108 to 170), up to its
return: a new request is opened, both timeouts are armed, the handlers are
registered, the content is written when truthy, the request is ended. -/
def startAttempt (st : OpState) : OpState :=
  let a := st.attempts.length
  { st with
    attempts := st.attempts ++ [{ handledError := false, timerDue := true }]
    log := st.log
      ++ [.knoxRequest a st.request.method st.request.url st.request.headers]
      ++ (if st.request.content.truthy then [.reqWrite a st.request.content] else [])
      ++ [.reqEnd a] }

/-- The function `_request`: `operation.attempt` runs the first attempt. -/
def _request (r : Request) : OpState :=
  startAttempt { request := r, attempts := [], retries := 0, log := [] }

/-- The inner function `errorHandler(err)` of attempt `a`. When the scheduler
answers that a further attempt was scheduled, that attempt is started. -/
def errorHandler (c : Collaborators) (st : OpState) (a : Nat) (err : ErrVal) : OpState :=
  match st.attempts[a]? with
  | none => st
  | some at_ =>
    if at_.handledError then st
    else
      let again := c.retry st.retries err
      let st := { st with
        attempts := st.attempts.set a { handledError := true, timerDue := false }
        retries := st.retries + 1
        log := st.log ++ [.reqEnd a, .clearTimeout a, .retry a err again] }
      if again then startAttempt st
      else { st with log := st.log ++ [.cb a (.failure err)] }

/-- The inner function `timeoutCallback` of attempt `a`. -/
def timeoutCallback (c : Collaborators) (st : OpState) (a : Nat) : OpState :=
  errorHandler c { st with log := st.log ++ [.reqAbort a] } a .timedOut

/-- What the `end` handler of the response does after clearing the timer. -/
inductive EndAction where
  | errorHandler (err : ErrVal)
  | cb (args : CbArgs)
  deriving DecidableEq, Repr

/-- The decision of the `end` handler (lines 155 to 163). -/
def onEnd (c : Collaborators) (res : Response) (xml : String) : EndAction :=
  if res.statusCode != 200 then .errorHandler (.body xml)
  else
    match c.parseString xml with
    | .error err => .errorHandler (.parseFailure err)
    | .ok parsedXml => .cb (.success res parsedXml)

/-- Clearing `timeoutTimer` of attempt `a`. -/
def clearTimer (st : OpState) (a : Nat) : OpState :=
  { st with
    attempts := st.attempts.modify (fun at_ => { at_ with timerDue := false }) a
    log := st.log ++ [.clearTimeout a] }

/-- One event is delivered. An event for an attempt that was never started is
dropped, and so is the manual timer of an attempt whose timer is not due. -/
def step (c : Collaborators) (st : OpState) : Event → OpState
  | .timer a =>
    match st.attempts[a]? with
    | none => st
    | some at_ =>
      if at_.timerDue then
        timeoutCallback c
          { st with attempts := st.attempts.set a { at_ with timerDue := false } } a
      else st
  | .transportTimeout a =>
    match st.attempts[a]? with
    | none => st
    | some _ => timeoutCallback c st a
  | .error a message => errorHandler c st a (.transport message)
  | .responseEnd a res xml =>
    match st.attempts[a]? with
    | none => st
    | some _ =>
      let st := clearTimer st a
      match onEnd c res xml with
      | .errorHandler err => errorHandler c st a err
      | .cb args => { st with log := st.log ++ [.cb a args] }

/-- The state after the events `events` were delivered in order. -/
def runEvents (c : Collaborators) (st : OpState) (events : List Event) : OpState :=
  events.foldl (step c) st

/-- The calls of `cb` recorded in a log, oldest first. -/
def cbCalls : List Effect → List CbArgs
  | [] => []
  | .cb _ args :: rest => args :: cbCalls rest
  | _ :: rest => cbCalls rest

/-- Whether an effect is a retry decision or a call of `cb`. -/
def Effect.isDecision : Effect → Bool
  | .retry _ _ _ => true
  | .cb _ _ => true
  | _ => false

/-- The retry decisions and the calls of `cb` recorded in a log, oldest first. -/
def decisions (log : List Effect) : List Effect :=
  log.filter Effect.isDecision

/-- The error an event hands to `errorHandler` of attempt `a`, when the event is
a failure event of that attempt: the manual timer or the transport timeout hook
(`ETIMEDOUT`), an `error` event (the transport's error), a response that ended
with a status other than 200 (its body text) or with a body the parser rejects
(the parser's error). -/
def failureOf (c : Collaborators) (a : Nat) : Event → Option ErrVal
  | .timer b => if a = b then some .timedOut else none
  | .transportTimeout b => if a = b then some .timedOut else none
  | .error b message => if a = b then some (.transport message) else none
  | .responseEnd b res xml =>
    if a = b then
      match onEnd c res xml with
      | .errorHandler err => some err
      | .cb _ => none
    else none

/-- The calls of the caller's `cb` during a single upload, as the events
`events` reach its one `_request` call: `_singleUpload` hands `cb` itself to
`_request`, so the calls `_request` makes are calls of the caller's callback. -/
def singleUploadCalls (c : Collaborators) (u : UploadRequest) (events : List Event) :
    List CbArgs :=
  cbCalls (runEvents c (_request (singleRequest u)) events).log

/-! ## Vocabulary of the statements -/

/-- Chunk `i` of a buffer, as the chunk loop slices it. -/
def chunkAt (buffer : Buffer) (i : Nat) : Buffer :=
  slice buffer (i * partSize) (min buffer.length ((i + 1) * partSize))

/-- The arguments of the initiate request. -/
def initiateRequest (u : UploadRequest) : Request :=
  { method := .POST, url := u.key ++ "?uploads", headers := u.headers.getD [],
    content := .null }

/-- The arguments of the request made by `uploadChunk(i)`. -/
def partRequest (u : UploadRequest) (id : String) (i : Nat) : Request :=
  { method := .PUT,
    url := u.key ++ "?partNumber=" ++ toString (i + 1) ++ "&uploadId=" ++ id,
    headers := [("Content-Length", .num (chunkAt u.payload i).length)],
    content := .buffer (chunkAt u.payload i) }

/-- The arguments of the request made by `finish()`. -/
def completeRequest (u : UploadRequest) (id : String) (etags : List (Option String)) :
    Request :=
  { method := .POST, url := u.key ++ "?uploadId=" ++ id, headers := [],
    content := .text (completeBody etags) }

/-- The arguments of the request made by `cleanup(err)`. -/
def abortRequest (u : UploadRequest) (id : String) : Request :=
  { method := .DELETE, url := u.key ++ "?&uploadId=" ++ id, headers := [], content := .null }

/-- The state in which the request of part `j` is in flight, the parts before it
having recorded `etags`. -/
def partState (u : UploadRequest) (id : String) (etags : List (Option String)) (j : Nat) :
    MState :=
  { caller := u
    upload_id := id
    chunks := chunkLoop u.payload
    etags := etags
    pending := some (.part j)
    requests := initiateRequest u :: (List.range (j + 1)).map (partRequest u id)
    callbacks := []
    crashed := false }

/-- The state in which the completion request is in flight. -/
def completingState (u : UploadRequest) (id : String) (etags : List (Option String)) :
    MState :=
  { caller := u
    upload_id := id
    chunks := chunkLoop u.payload
    etags := etags
    pending := some .complete
    requests := initiateRequest u ::
      ((List.range (chunkLoop u.payload).length).map (partRequest u id)
        ++ [completeRequest u id etags])
    callbacks := []
    crashed := false }

/-- The ETag header values of a list of part responses. -/
def etagsOf (parts : List (Response × ParsedXml)) : List (Option String) :=
  parts.map fun p => p.1.etag

/-- The callback arguments of a list of successful exchanges. -/
def successes (parts : List (Response × ParsedXml)) : List CbArgs :=
  parts.map fun p => CbArgs.success p.1 p.2

/-- One `<Part>` entry of the completion document, as `finish` appends it for
index `i` and ETag text `etag`. -/
def partEntry (i : Nat) (etag : String) : String :=
  "\t<Part>\n"
    ++ ("\t\t<PartNumber>" ++ toString (i + 1) ++ "</PartNumber>\n")
    ++ ("\t\t<ETag>\"" ++ etag ++ "\"</ETag>\n")
    ++ "\t</Part>\n"

/-- What one `_request` call reports to its callback: `cb(err)` from
`errorHandler`, or `cb(null, res, parsedXml)` from the response handler. -/
inductive Outcome where
  | failure (err : ErrVal)
  | success (res : Response) (xml : ParsedXml)
  deriving DecidableEq, Repr

/-- The callback arguments of an outcome. -/
def Outcome.args : Outcome → CbArgs
  | .failure err => CbArgs.failure err
  | .success res xml => CbArgs.success res xml

/-- The ETag of the response when the outcome `o` is a success reported to the
callback of a part request, in the state `s` it is delivered to. -/
def partSuccess (s : MState) (o : Outcome) : List (Option String) :=
  match s.pending, o with
  | some (.part _), .success res _ => [res.etag]
  | _, _ => []

/-- The ETags of the part exchanges that report success while `outcomes` are
delivered from the state `s`, in the order of the reports. -/
def partSuccesses : MState → List Outcome → List (Option String)
  | _, [] => []
  | s, o :: os => partSuccess s o ++ partSuccesses (deliver s o.args) os

/-- The part requests among the requests made so far, oldest first. -/
def partPuts (s : MState) : List Request :=
  s.requests.filter fun r => decide (r.method = .PUT)

/-- The part requests made so far are those of the parts `0 .. m-1` for some
`m`, which is the number of recorded ETags or one more, and no more ETags are
recorded than there are chunks. -/
def Framed (u : UploadRequest) (s : MState) : Prop :=
  s.caller = u ∧
  s.etags.length ≤ (chunkLoop u.payload).length ∧
  ∃ m, partPuts s = (List.range m).map (partRequest u s.upload_id) ∧
    s.etags.length ≤ m ∧ m ≤ s.etags.length + 1

/-- A state with neither the initiate request nor a part request in flight: the
completion request or the abort request is in flight, or nothing is. -/
def Quiet (u : UploadRequest) (s : MState) : Prop :=
  Framed u s ∧
  (s.pending = some .complete ∨ (∃ e, s.pending = some (.cleanup e)) ∨ s.pending = none)

/-- The states a multipart upload of `u` goes through. -/
def Reach (u : UploadRequest) (s : MState) : Prop :=
  s = _multipartUpload u ∨
  (∃ id etags j, s = partState u id etags j ∧ etags.length = j ∧
    j < (chunkLoop u.payload).length) ∨
  Quiet u s

/-- The error handler of attempt `a` has run: `handledError` is set and the
manual timer is cleared. -/
def Handled (st : OpState) (a : Nat) : Prop :=
  st.attempts[a]? = some { handledError := true, timerDue := false }

/-! ## Concrete inputs -/

/-- A payload of 1 MiB and no caller headers. -/
def oneMiB : UploadRequest :=
  { payload := List.replicate (1024 * 1024) 0, key := "key", headers := none }

/-- A payload of 12 MiB and no caller headers. -/
def twelveMiB : UploadRequest :=
  { payload := List.replicate (12 * 1024 * 1024) 0, key := "key", headers := none }

/-- A payload of exactly 5 MiB and no caller headers. -/
def fiveMiB : UploadRequest :=
  { payload := List.replicate (5 * 1024 * 1024) 0, key := "key", headers := none }

/-- An initiate response carrying the upload id `abc`. -/
def initiated : CbArgs :=
  .success { statusCode := 200, etag := none } { uploadId := some "abc" }

/-- Three part responses with the ETags `e1`, `e2`, `e3`. -/
def threeParts : List (Response × ParsedXml) :=
  [({ statusCode := 200, etag := some "e1" }, { uploadId := none }),
   ({ statusCode := 200, etag := some "e2" }, { uploadId := none }),
   ({ statusCode := 200, etag := some "e3" }, { uploadId := none })]

/-- A response with status 200 and no ETag, and an empty parsed body. -/
def plainOk : CbArgs :=
  .success { statusCode := 200, etag := none } { uploadId := none }

/-- A scheduler that never schedules a further attempt and a parser that accepts
every body. -/
def decliningScheduler : Collaborators :=
  { parseString := fun _ => .ok { uploadId := none }, retry := fun _ _ => false }

/-- A caller with a one-byte payload and no headers. -/
def oneByte : UploadRequest :=
  { payload := [0], key := "key", headers := none }

/-- The state of a `_request` call for the single upload of `oneByte`, right
after `operation.attempt` ran the first attempt. -/
def oneByteExchange : OpState :=
  _request (singleRequest oneByte)

/-- Four failure events of attempt 0: the transport reports an error, the
manual timer fires, the transport timeout hook fires, and a response ends with
status 500. -/
def failureStorm : List Event :=
  [.timer 0, .transportTimeout 0, .error 0 "socket hang up",
   .responseEnd 0 { statusCode := 500, etag := none } "busy"]

/-- A scheduler shaped like the one `retry.operation({ minTimeout: 200 })`
builds: it declines a falsy error and accepts the first ten others. The parser
accepts every body. -/
def tenRetries : Collaborators :=
  { parseString := fun _ => .ok { uploadId := none }
    retry := fun n err => err.truthy && decide (n < 10) }

/-- A part response with status 200 and the ETag `e1`. -/
def partOk : CbArgs :=
  .success { statusCode := 200, etag := some "e1" } { uploadId := none }

/-- The response of attempt 0 ends with status 200, the transport timeout hook
of attempt 0 fires afterwards, and the response of the attempt started by the
retry ends with status 200. -/
def lateTimeout : List Event :=
  [.responseEnd 0 { statusCode := 200, etag := some "e1" } "",
   .transportTimeout 0,
   .responseEnd 1 { statusCode := 200, etag := some "e1" } ""]

/-! ## Chunk partitioning -/

theorem foldl_push_eq_map {α β : Type} (f : α → β) (l : List α) (init : List β) :
    l.foldl (fun acc i => acc ++ [f i]) init = init ++ l.map f := by
  induction l generalizing init with
  | nil => simp
  | cons x xs ih => simp [ih]

theorem chunksWith_eq_map (size : Nat) (buffer : Buffer) :
    chunksWith size buffer =
      (List.range (ceilDiv buffer.length size)).map fun i =>
        slice buffer (i * size) (min buffer.length ((i + 1) * size)) := by
  unfold chunksWith
  rw [foldl_push_eq_map]
  simp

theorem length_chunksWith (size : Nat) (buffer : Buffer) :
    (chunksWith size buffer).length = ceilDiv buffer.length size := by
  simp [chunksWith_eq_map]

theorem length_slice (buffer : Buffer) (start stop : Nat) :
    (slice buffer start stop).length = min stop buffer.length - start := by
  simp [slice]

theorem le_ceilDiv_mul (a b : Nat) (hb : 0 < b) : a ≤ ceilDiv a b * b := by
  unfold ceilDiv
  have h1 := Nat.div_add_mod (a + b - 1) b
  have h2 := Nat.mod_lt (a + b - 1) hb
  have h3 : b * ((a + b - 1) / b) = (a + b - 1) / b * b := Nat.mul_comm _ _
  omega

theorem ceilDiv_mul_lt (a b : Nat) (hb : 0 < b) (ha : 0 < a) :
    ceilDiv a b * b < a + b := by
  unfold ceilDiv
  have h1 := Nat.div_add_mod (a + b - 1) b
  have h3 : b * ((a + b - 1) / b) = (a + b - 1) / b * b := Nat.mul_comm _ _
  omega

theorem ceilDiv_pos (a b : Nat) (hb : 0 < b) (ha : 0 < a) : 0 < ceilDiv a b := by
  have h := le_ceilDiv_mul a b hb
  rcases Nat.eq_zero_or_pos (ceilDiv a b) with h0 | h0
  · rw [h0] at h
    omega
  · exact h0

/-- The end of chunk `i` lies inside the buffer when `i` is not the last index. -/
theorem succ_mul_lt_of_not_last (a b i : Nat) (hb : 0 < b) (hi : i + 1 < ceilDiv a b) :
    (i + 1) * b < a := by
  have ha : 0 < a := by
    rcases Nat.eq_zero_or_pos a with h0 | h0
    · subst h0
      have : ceilDiv 0 b = 0 := by
        unfold ceilDiv
        exact Nat.div_eq_of_lt (by omega)
      omega
    · exact h0
  have h1 := ceilDiv_mul_lt a b hb ha
  have h2 : (i + 2) * b ≤ ceilDiv a b * b := Nat.mul_le_mul_right b hi
  have h3 : (i + 2) * b = (i + 1) * b + b := by ring
  omega

theorem getElem?_chunksWith (size : Nat) (buffer : Buffer) (i : Nat) (chunk : Buffer)
    (h : (chunksWith size buffer)[i]? = some chunk) :
    i < ceilDiv buffer.length size ∧
      chunk = slice buffer (i * size) (min buffer.length ((i + 1) * size)) := by
  rw [chunksWith_eq_map, List.getElem?_map] at h
  have hi : i < ceilDiv buffer.length size := by
    by_contra hc
    rw [List.getElem?_eq_none (by simpa using hc)] at h
    simp at h
  rw [List.getElem?_range hi] at h
  simp at h
  exact ⟨hi, h.symm⟩

theorem chunksWith_getElem? (size : Nat) (buffer : Buffer) (i : Nat)
    (hi : i < ceilDiv buffer.length size) :
    (chunksWith size buffer)[i]? =
      some (slice buffer (i * size) (min buffer.length ((i + 1) * size))) := by
  rw [chunksWith_eq_map, List.getElem?_map, List.getElem?_range hi]
  rfl

theorem length_chunk_not_last (size : Nat) (hs : 0 < size) (buffer : Buffer) (i : Nat)
    (hi : i + 1 < ceilDiv buffer.length size) :
    (slice buffer (i * size) (min buffer.length ((i + 1) * size))).length = size := by
  have h := succ_mul_lt_of_not_last buffer.length size i hs hi
  have h3 : (i + 1) * size = i * size + size := by ring
  rw [length_slice]
  omega

theorem length_chunk_last (size : Nat) (hs : 0 < size) (buffer : Buffer)
    (hl : 0 < buffer.length) :
    (slice buffer ((ceilDiv buffer.length size - 1) * size)
        (min buffer.length ((ceilDiv buffer.length size - 1 + 1) * size))).length
      = buffer.length - size * (ceilDiv buffer.length size - 1) := by
  have hp := ceilDiv_pos buffer.length size hs hl
  have h1 := le_ceilDiv_mul buffer.length size hs
  have h2 : ceilDiv buffer.length size - 1 + 1 = ceilDiv buffer.length size := by omega
  rw [length_slice, h2, Nat.mul_comm size]
  omega

theorem flatten_slices (size : Nat) (buffer : Buffer) (k : Nat) :
    ((List.range k).map fun i =>
        slice buffer (i * size) (min buffer.length ((i + 1) * size))).flatten
      = buffer.take (k * size) := by
  induction k with
  | zero => simp
  | succ k ih =>
    rw [List.range_succ, List.map_append, List.flatten_append, ih]
    simp only [List.map_cons, List.map_nil, List.flatten_cons, List.flatten_nil,
      List.append_nil, slice]
    have h1 : List.take (min buffer.length ((k + 1) * size)) buffer
        = List.take ((k + 1) * size) buffer := by
      rw [Nat.min_comm, ← List.take_take, List.take_length]
    have h2 : List.take (k * size) buffer
        = List.take (k * size) (List.take ((k + 1) * size) buffer) := by
      rw [List.take_take, Nat.min_eq_left]
      have : (k + 1) * size = k * size + size := by ring
      omega
    rw [h1, h2, List.take_append_drop]

theorem flatten_chunksWith (size : Nat) (hs : 0 < size) (buffer : Buffer) :
    (chunksWith size buffer).flatten = buffer := by
  rw [chunksWith_eq_map, flatten_slices]
  exact List.take_of_length_le (le_ceilDiv_mul buffer.length size hs)

theorem partSize_pos : 0 < partSize := by decide

theorem pos_mul_eq (n b : Nat) (hn : 0 < n) : n * b = b * (n - 1) + b := by
  obtain ⟨m, rfl⟩ : ∃ m, n = m + 1 := ⟨n - 1, by omega⟩
  simp
  ring

/-- C3: the chunk list built by `_multipartUpload` has `ceil(L / 5 MiB)` chunks,
every chunk but the last has length exactly 5 MiB, for `L ≥ 1` the last chunk
has length `L - 5 MiB * (count - 1)`, which lies between 1 and 5 MiB, and the
chunks concatenated in order give back the payload. -/
theorem chunkLoop_partition (buffer : Buffer) :
    (chunkLoop buffer).length = ceilDiv buffer.length (5 * 1024 * 1024) ∧
    (∀ i chunk, (chunkLoop buffer)[i]? = some chunk →
      i + 1 < (chunkLoop buffer).length → chunk.length = 5 * 1024 * 1024) ∧
    (1 ≤ buffer.length → ∃ last, (chunkLoop buffer).getLast? = some last ∧
      last.length = buffer.length - 5 * 1024 * 1024 * ((chunkLoop buffer).length - 1) ∧
      1 ≤ last.length ∧ last.length ≤ 5 * 1024 * 1024) ∧
    (chunkLoop buffer).flatten = buffer := by
  have hP : (5 * 1024 * 1024 : Nat) = partSize := rfl
  rw [hP]
  unfold chunkLoop
  refine ⟨length_chunksWith _ _, ?_, ?_, flatten_chunksWith _ partSize_pos _⟩
  · intro i chunk h hi
    rw [length_chunksWith] at hi
    obtain ⟨_, rfl⟩ := getElem?_chunksWith _ _ _ _ h
    exact length_chunk_not_last _ partSize_pos _ _ hi
  · intro hl
    have hp := ceilDiv_pos buffer.length partSize partSize_pos hl
    have hlast := length_chunk_last partSize partSize_pos buffer hl
    refine ⟨slice buffer ((ceilDiv buffer.length partSize - 1) * partSize)
      (min buffer.length ((ceilDiv buffer.length partSize - 1 + 1) * partSize)), ?_, ?_, ?_, ?_⟩
    · rw [List.getLast?_eq_getElem?, length_chunksWith]
      exact chunksWith_getElem? _ _ _ (by omega)
    · rw [length_chunksWith]
      exact hlast
    · rw [hlast]
      have h1 := ceilDiv_mul_lt buffer.length partSize partSize_pos hl
      have h2 : ceilDiv buffer.length partSize * partSize
          = partSize * (ceilDiv buffer.length partSize - 1) + partSize :=
        pos_mul_eq _ _ hp
      omega
    · rw [hlast]
      have h1 := le_ceilDiv_mul buffer.length partSize partSize_pos
      have h2 : ceilDiv buffer.length partSize * partSize
          = partSize * (ceilDiv buffer.length partSize - 1) + partSize :=
        pos_mul_eq _ _ hp
      omega

/-! ## Headers of the single upload -/

theorem getProp_setProp_same (h : Headers) (k : String) (v : HeaderValue) :
    getProp (setProp h k v) k = some v := by
  induction h with
  | nil => simp [setProp, getProp]
  | cons p rest ih =>
    obtain ⟨k0, v0⟩ := p
    by_cases hk : k0 = k
    · simp [setProp, getProp, hk]
    · simp [setProp, getProp, hk, ih]

theorem getProp_setProp_other (h : Headers) (k k1 : String) (v : HeaderValue)
    (hne : k1 ≠ k) : getProp (setProp h k v) k1 = getProp h k1 := by
  induction h with
  | nil =>
    have : ¬ k = k1 := fun e => hne e.symm
    simp [setProp, getProp, this]
  | cons p rest ih =>
    obtain ⟨k0, v0⟩ := p
    by_cases hk : k0 = k
    · subst hk
      have : ¬ k0 = k1 := fun e => hne e.symm
      simp [setProp, getProp, this]
    · by_cases hk1 : k0 = k1
      · subst hk1
        simp [setProp, getProp, hk]
      · simp [setProp, getProp, hk, hk1, ih]

theorem getProp_singleHeaders_expect (u : UploadRequest) :
    getProp (singleHeaders u) "Expect" = some (.str "100-continue") := by
  unfold singleHeaders
  rw [getProp_setProp_other _ _ _ _ (by decide), getProp_setProp_same]

theorem getProp_singleHeaders_length (u : UploadRequest) :
    getProp (singleHeaders u) "Content-Length" = some (.num u.payload.length) := by
  unfold singleHeaders
  exact getProp_setProp_same _ _ _

theorem getProp_singleHeaders_other (u : UploadRequest) (k : String)
    (h1 : k ≠ "Expect") (h2 : k ≠ "Content-Length") :
    getProp (singleHeaders u) k = getProp (u.headers.getD []) k := by
  unfold singleHeaders
  rw [getProp_setProp_other _ _ _ _ h2, getProp_setProp_other _ _ _ _ h1]

/-- C8, as stated, fails: with a one-byte payload and caller headers holding
`Expect: none`, the `Expect` header sent is `100-continue`, not the value of the
caller. -/
theorem singleUpload_caller_expect_replaced :
    (upload { payload := [0], key := "key", headers := some [("Expect", .str "none")] }).requests
        = [{ method := .PUT, url := "key",
             headers := [("Expect", .str "100-continue"), ("Content-Length", .num 1)],
             content := .buffer [0] }] ∧
    ¬ (∀ r ∈ (upload { payload := [0], key := "key",
                       headers := some [("Expect", .str "none")] }).requests,
        ∀ k v, getProp [("Expect", .str "none")] k = some v → getProp r.headers k = some v) := by
  constructor
  · decide
  · intro h
    have h1 := h _ (List.mem_singleton.mpr rfl) "Expect" (.str "none") (by decide)
    revert h1
    decide

/-- C8, amended: for a payload shorter than 5 MiB and any caller headers
(absent included) the only request is one PUT to the key with the payload as
body, whose headers are the caller's entries with `Expect` set to `100-continue`
and `Content-Length` set to the payload length: the two protocol values replace
any value the caller gave under these names, and every other name has exactly
the caller's value (and is absent when the caller has none). -/
theorem singleUpload_headers (u : UploadRequest)
    (hlen : u.payload.length < 5 * 1024 * 1024) :
    ∃ sent, (upload u).requests
        = [{ method := .PUT, url := u.key, headers := sent, content := .buffer u.payload }] ∧
      getProp sent "Expect" = some (.str "100-continue") ∧
      getProp sent "Content-Length" = some (.num u.payload.length) ∧
      ∀ k, k ≠ "Expect" → k ≠ "Content-Length" →
        getProp sent k = getProp (u.headers.getD []) k := by
  refine ⟨singleHeaders u, ?_, getProp_singleHeaders_expect u,
    getProp_singleHeaders_length u, getProp_singleHeaders_other u⟩
  simp [upload, hlen, _singleUpload, singleRequest]

theorem length_oneMiB : oneMiB.payload.length = 1048576 :=
  List.length_replicate _ _

theorem headers_oneMiB : oneMiB.headers = none := rfl

theorem singleUpload_headers_witness :
    oneMiB.payload.length < 5 * 1024 * 1024 ∧
    (∃ sent, (upload oneMiB).requests
        = [{ method := .PUT, url := oneMiB.key, headers := sent,
             content := .buffer oneMiB.payload }] ∧
      getProp sent "Expect" = some (.str "100-continue") ∧
      getProp sent "Content-Length" = some (.num oneMiB.payload.length) ∧
      ∀ k, k ≠ "Expect" → k ≠ "Content-Length" →
        getProp sent k = getProp (oneMiB.headers.getD []) k) ∧
    singleHeaders oneMiB = [("Expect", .str "100-continue"), ("Content-Length", .num 1048576)] :=
  ⟨by rw [length_oneMiB]; decide,
   singleUpload_headers oneMiB (by rw [length_oneMiB]; decide),
   by rw [singleHeaders, length_oneMiB, headers_oneMiB]; rfl⟩

/-! ## The caller's values -/

theorem caller_callCb (s : MState) (args : CbArgs) : (callCb s args).caller = s.caller := rfl
theorem caller_throwTypeError (s : MState) : (throwTypeError s).caller = s.caller := rfl
theorem caller_cleanup (s : MState) (e : ErrVal) : (cleanup s e).caller = s.caller := rfl
theorem caller_finish (s : MState) : (finish s).caller = s.caller := rfl
theorem caller_uploadChunk (s : MState) (i : Nat) : (uploadChunk s i).caller = s.caller := by
  unfold uploadChunk
  split <;> rfl

theorem caller_onInitiate (s : MState) (args : CbArgs) :
    (onInitiate s args).caller = s.caller := by
  unfold onInitiate
  cases truthyErr args.err with
  | some e => rfl
  | none =>
    cases (args.xml.bind fun x => x.uploadId) with
    | none => rfl
    | some id => exact caller_uploadChunk _ _

theorem caller_onPart (s : MState) (i : Nat) (args : CbArgs) :
    (onPart s i args).caller = s.caller := by
  unfold onPart
  cases truthyErr args.err with
  | some e => rfl
  | none =>
    cases args.res with
    | none => rfl
    | some res =>
      show (if _ then _ else _ : MState).caller = _
      split
      · rfl
      · exact caller_uploadChunk _ _

theorem caller_onComplete (s : MState) (args : CbArgs) :
    (onComplete s args).caller = s.caller := by
  unfold onComplete
  cases truthyErr args.err <;> rfl

theorem caller_deliver (s : MState) (args : CbArgs) : (deliver s args).caller = s.caller := by
  unfold deliver
  cases s.pending with
  | none => rfl
  | some k =>
    cases k with
    | caller => rfl
    | initiate => exact caller_onInitiate s args
    | part i => exact caller_onPart s i args
    | complete => exact caller_onComplete s args
    | cleanup err => rfl

theorem caller_run (outcomes : List CbArgs) (s : MState) :
    (run s outcomes).caller = s.caller := by
  induction outcomes generalizing s with
  | nil => rfl
  | cons o os ih =>
    show (run (deliver s o) os).caller = s.caller
    rw [ih, caller_deliver]

/-- C9, as stated, fails: a caller who passes an empty headers object with a
one-byte payload finds two entries in that object after the call. -/
theorem upload_changes_caller_headers :
    (upload { payload := [0], key := "key", headers := some [] }).caller.headers
        = some [("Expect", .str "100-continue"), ("Content-Length", .num 1)] ∧
    (upload { payload := [0], key := "key", headers := some [] }).caller
        ≠ { payload := [0], key := "key", headers := some [] } := by
  constructor <;> decide

/-- C9, amended: after any number of reported exchanges the payload and the key
are the ones the caller passed; for a payload of 5 MiB or more the headers
object of the caller is as it was; for a shorter payload an absent headers
argument stays absent, and a headers object the caller passed has `Expect` set
to `100-continue` and `Content-Length` set to the payload length, every entry
under another name being as it was. -/
theorem upload_frame (u : UploadRequest) (outcomes : List CbArgs) :
    (run (upload u) outcomes).caller.payload = u.payload ∧
    (run (upload u) outcomes).caller.key = u.key ∧
    (run (upload u) outcomes).caller.headers =
      (if u.payload.length < 5 * 1024 * 1024 then
        u.headers.map fun h =>
          setProp (setProp h "Expect" (.str "100-continue")) "Content-Length"
            (.num u.payload.length)
      else u.headers) ∧
    (∀ h k, (run (upload u) outcomes).caller.headers = some h →
      k ≠ "Expect" → k ≠ "Content-Length" →
      getProp h k = getProp (u.headers.getD []) k) := by
  rw [caller_run]
  by_cases hlen : u.payload.length < 5 * 1024 * 1024
  · simp only [upload, hlen, if_true, _singleUpload]
    refine ⟨trivial, trivial, ?_, ?_⟩
    · cases hh : u.headers <;> simp [singleHeaders, hh]
    · intro h k hk h1 h2
      cases hh : u.headers with
      | none => simp [hh] at hk
      | some h0 =>
        simp only [hh, Option.map_some', Option.some.injEq] at hk
        rw [← hk, getProp_singleHeaders_other u k h1 h2, hh]
  · simp only [upload, hlen, if_false, _multipartUpload]
    refine ⟨trivial, trivial, trivial, ?_⟩
    intro h k hk _ _
    simp [hk]

/-! ## The multipart state machine, step by step -/

theorem length_chunkLoop (buffer : Buffer) :
    (chunkLoop buffer).length = ceilDiv buffer.length partSize :=
  length_chunksWith _ _

theorem chunkLoop_getElem? (buffer : Buffer) (i : Nat) (hi : i < (chunkLoop buffer).length) :
    (chunkLoop buffer)[i]? = some (chunkAt buffer i) := by
  rw [length_chunkLoop] at hi
  exact chunksWith_getElem? _ _ _ hi

theorem chunkLoop_pos (buffer : Buffer) (h : 5 * 1024 * 1024 ≤ buffer.length) :
    0 < (chunkLoop buffer).length := by
  rw [length_chunkLoop]
  exact ceilDiv_pos _ _ partSize_pos (by omega)

theorem truthyErr_none : truthyErr none = none := rfl

theorem truthyErr_some (e : ErrVal) (h : e.truthy = true) : truthyErr (some e) = some e := by
  simp [truthyErr, Option.filter, h]

theorem truthyErr_falsy (e : ErrVal) (h : e.truthy = false) : truthyErr (some e) = none := by
  simp [truthyErr, Option.filter, h]

theorem uploadChunk_of_getElem? (s : MState) (i : Nat) (slice : Buffer)
    (h : s.chunks[i]? = some slice) :
    uploadChunk s i = { s with
      pending := some (.part i)
      requests := s.requests ++
        [{ method := .PUT,
           url := s.caller.key ++ "?partNumber=" ++ toString (i + 1) ++ "&uploadId="
                    ++ s.upload_id,
           headers := [("Content-Length", .num slice.length)],
           content := .buffer slice }] } := by
  unfold uploadChunk
  rw [h]

theorem uploadChunk_of_none (s : MState) (i : Nat) (h : s.chunks[i]? = none) :
    uploadChunk s i = throwTypeError s := by
  unfold uploadChunk
  rw [h]

theorem onPart_of_falsy (s : MState) (i : Nat) (args : CbArgs)
    (h : truthyErr args.err = none) :
    onPart s i args =
      match args.res with
      | none => throwTypeError s
      | some res =>
        if i + 1 = s.chunks.length then finish { s with etags := s.etags ++ [res.etag] }
        else uploadChunk { s with etags := s.etags ++ [res.etag] } (i + 1) := by
  unfold onPart
  rw [h]

theorem onPart_of_truthy (s : MState) (i : Nat) (args : CbArgs) (e : ErrVal)
    (h : truthyErr args.err = some e) : onPart s i args = cleanup s e := by
  unfold onPart
  rw [h]

theorem onComplete_of_falsy (s : MState) (args : CbArgs) (h : truthyErr args.err = none) :
    onComplete s args = callCb s { err := none, res := args.res, xml := none } := by
  unfold onComplete
  rw [h]

theorem onComplete_of_truthy (s : MState) (args : CbArgs) (e : ErrVal)
    (h : truthyErr args.err = some e) : onComplete s args = cleanup s e := by
  unfold onComplete
  rw [h]

theorem onInitiate_of_truthy (s : MState) (args : CbArgs) (e : ErrVal)
    (h : truthyErr args.err = some e) :
    onInitiate s args = callCb s { err := some e, res := none, xml := none } := by
  unfold onInitiate
  rw [h]

theorem onInitiate_of_falsy (s : MState) (args : CbArgs) (h : truthyErr args.err = none) :
    onInitiate s args =
      match args.xml.bind fun x => x.uploadId with
      | none => throwTypeError s
      | some id =>
        uploadChunk { s with upload_id := encodeURIComponent id,
                             chunks := chunkLoop s.caller.payload,
                             etags := [] } 0 := by
  unfold onInitiate
  rw [h]

theorem partRequests_succ (u : UploadRequest) (id : String) (j : Nat) :
    initiateRequest u :: (List.range (j + 1 + 1)).map (partRequest u id)
      = (initiateRequest u :: (List.range (j + 1)).map (partRequest u id))
          ++ [partRequest u id (j + 1)] := by
  rw [List.range_succ (j + 1), List.map_append]
  rfl

/-- The initiate callback on a success that carries an upload id starts part 0. -/
theorem deliver_initiate_success (u : UploadRequest) (r0 : Response) (x0 : ParsedXml)
    (raw : String) (hx : x0.uploadId = some raw) (hN : 0 < (chunkLoop u.payload).length) :
    deliver (_multipartUpload u) (.success r0 x0)
      = partState u (encodeURIComponent raw) [] 0 := by
  have hc := chunkLoop_getElem? u.payload 0 hN
  have h1 : deliver (_multipartUpload u) (.success r0 x0)
      = onInitiate (_multipartUpload u) (.success r0 x0) := rfl
  have h3 : ((CbArgs.success r0 x0).xml.bind fun x => x.uploadId) = some raw := hx
  rw [h1, onInitiate_of_falsy (_multipartUpload u) (.success r0 x0) rfl]
  simp only [h3]
  rw [uploadChunk_of_getElem? _ 0 _ hc]
  rfl

/-- A part that is not the last succeeds: its ETag is recorded and the next part
is started. -/
theorem deliver_part_success (u : UploadRequest) (id : String) (etags : List (Option String))
    (j : Nat) (r : Response) (x : ParsedXml) (hj : j + 1 < (chunkLoop u.payload).length) :
    deliver (partState u id etags j) (.success r x)
      = partState u id (etags ++ [r.etag]) (j + 1) := by
  have hc := chunkLoop_getElem? u.payload (j + 1) hj
  have hne : ¬ j + 1 = (chunkLoop u.payload).length := by omega
  have h1 : deliver (partState u id etags j) (.success r x)
      = (if j + 1 = (chunkLoop u.payload).length then
          finish { partState u id etags j with etags := etags ++ [r.etag] }
        else uploadChunk { partState u id etags j with etags := etags ++ [r.etag] } (j + 1)) :=
    rfl
  rw [h1, if_neg hne, uploadChunk_of_getElem? _ (j + 1) _ hc]
  unfold partState
  rw [partRequests_succ]
  rfl

/-- The last part succeeds: its ETag is recorded and the completion request is
made. -/
theorem deliver_last_part_success (u : UploadRequest) (id : String)
    (etags : List (Option String)) (j : Nat) (r : Response) (x : ParsedXml)
    (hj : j + 1 = (chunkLoop u.payload).length) :
    deliver (partState u id etags j) (.success r x)
      = completingState u id (etags ++ [r.etag]) := by
  have h1 : deliver (partState u id etags j) (.success r x)
      = (if j + 1 = (chunkLoop u.payload).length then
          finish { partState u id etags j with etags := etags ++ [r.etag] }
        else uploadChunk { partState u id etags j with etags := etags ++ [r.etag] } (j + 1)) :=
    rfl
  rw [h1, if_pos hj]
  unfold completingState
  rw [← hj]
  rfl

/-- A part fails with a truthy error: the abort request is made. -/
theorem deliver_part_failure (u : UploadRequest) (id : String) (etags : List (Option String))
    (j : Nat) (e : ErrVal) (he : e.truthy = true) :
    deliver (partState u id etags j) (.failure e)
      = { partState u id etags j with
          pending := some (.cleanup e)
          requests := (partState u id etags j).requests ++ [abortRequest u id] } := by
  have h1 : deliver (partState u id etags j) (.failure e)
      = onPart (partState u id etags j) j (.failure e) := rfl
  rw [h1, onPart_of_truthy _ _ _ e (truthyErr_some e he)]
  rfl

/-- A part fails with a falsy error: the callback reads `res.headers` of an
undefined `res` and throws. -/
theorem deliver_part_falsy (u : UploadRequest) (id : String) (etags : List (Option String))
    (j : Nat) (e : ErrVal) (he : e.truthy = false) :
    deliver (partState u id etags j) (.failure e)
      = { partState u id etags j with pending := none, crashed := true } := by
  have h1 : deliver (partState u id etags j) (.failure e)
      = onPart (partState u id etags j) j (.failure e) := rfl
  rw [h1, onPart_of_falsy _ _ _ (truthyErr_falsy e he)]
  rfl

/-- The completion succeeds: the caller is called with the completion response. -/
theorem deliver_complete_success (u : UploadRequest) (id : String)
    (etags : List (Option String)) (rc : Response) (xc : ParsedXml) :
    deliver (completingState u id etags) (.success rc xc)
      = { completingState u id etags with
          pending := none
          callbacks := [{ err := none, res := some rc, xml := none }] } := rfl

/-- The completion fails with a truthy error: the abort request is made. -/
theorem deliver_complete_failure (u : UploadRequest) (id : String)
    (etags : List (Option String)) (e : ErrVal) (he : e.truthy = true) :
    deliver (completingState u id etags) (.failure e)
      = { completingState u id etags with
          pending := some (.cleanup e)
          requests := (completingState u id etags).requests ++ [abortRequest u id] } := by
  have h1 : deliver (completingState u id etags) (.failure e)
      = onComplete (completingState u id etags) (.failure e) := rfl
  rw [h1, onComplete_of_truthy _ _ e (truthyErr_some e he)]
  rfl

/-- The completion fails with a falsy error: the caller is called as on success,
with no response. -/
theorem deliver_complete_falsy (u : UploadRequest) (id : String)
    (etags : List (Option String)) (e : ErrVal) (he : e.truthy = false) :
    deliver (completingState u id etags) (.failure e)
      = { completingState u id etags with
          pending := none
          callbacks := [{ err := none, res := none, xml := none }] } := by
  have h1 : deliver (completingState u id etags) (.failure e)
      = onComplete (completingState u id etags) (.failure e) := rfl
  rw [h1, onComplete_of_falsy _ _ (truthyErr_falsy e he)]
  rfl

theorem run_append (s : MState) (xs ys : List CbArgs) :
    run s (xs ++ ys) = run (run s xs) ys :=
  List.foldl_append _ _ _ _

theorem run_cons (s : MState) (x : CbArgs) (xs : List CbArgs) :
    run s (x :: xs) = run (deliver s x) xs := rfl

theorem run_nil (s : MState) : run s [] = s := rfl

/-- Parts succeed one after the other while parts remain. -/
theorem run_parts (u : UploadRequest) (id : String) (parts : List (Response × ParsedXml)) :
    ∀ (etags : List (Option String)) (j : Nat),
      j + parts.length < (chunkLoop u.payload).length →
      run (partState u id etags j) (successes parts)
        = partState u id (etags ++ etagsOf parts) (j + parts.length) := by
  induction parts with
  | nil =>
    intro etags j _
    simp [successes, etagsOf, run_nil]
  | cons p ps ih =>
    intro etags j hj
    simp only [List.length_cons] at hj
    have h1 : successes (p :: ps) = CbArgs.success p.1 p.2 :: successes ps := rfl
    have h2 : etagsOf (p :: ps) = p.1.etag :: etagsOf ps := rfl
    rw [h1, run_cons, deliver_part_success u id etags j p.1 p.2 (by omega),
      ih _ _ (by omega), h2]
    have h3 : j + 1 + ps.length = j + (p :: ps).length := by
      simp only [List.length_cons]
      omega
    rw [h3, List.append_assoc]
    rfl

theorem length_successes (parts : List (Response × ParsedXml)) :
    (successes parts).length = parts.length := by
  simp [successes]

theorem length_etagsOf (parts : List (Response × ParsedXml)) :
    (etagsOf parts).length = parts.length := by
  simp [etagsOf]

/-- After the initiate success and the success of every part, the completion
request is in flight. -/
theorem run_all_parts (u : UploadRequest) (r0 : Response) (x0 : ParsedXml) (raw : String)
    (parts : List (Response × ParsedXml)) (hx : x0.uploadId = some raw)
    (hlen : 5 * 1024 * 1024 ≤ u.payload.length)
    (hparts : parts.length = (chunkLoop u.payload).length) :
    run (_multipartUpload u) (CbArgs.success r0 x0 :: successes parts)
      = completingState u (encodeURIComponent raw) (etagsOf parts) := by
  have hN := chunkLoop_pos u.payload hlen
  have hne : parts ≠ [] := by
    intro h
    rw [h] at hparts
    simp at hparts
    omega
  obtain ⟨ps, p, rfl⟩ : ∃ ps p, parts = ps ++ [p] :=
    ⟨parts.dropLast, parts.getLast hne, (List.dropLast_append_getLast hne).symm⟩
  simp only [List.length_append, List.length_singleton] at hparts
  have h1 : successes (ps ++ [p]) = successes ps ++ [CbArgs.success p.1 p.2] := by
    simp [successes]
  have h2 : etagsOf (ps ++ [p]) = etagsOf ps ++ [p.1.etag] := by
    simp [etagsOf]
  rw [run_cons, deliver_initiate_success u r0 x0 raw hx hN, h1, run_append,
    run_parts u _ ps [] 0 (by omega), run_cons, run_nil, h2]
  simp only [List.nil_append, Nat.zero_add]
  exact deliver_last_part_success u _ _ _ _ _ hparts

/-- After the initiate success and the success of the first `parts.length`
parts, with parts remaining, the next part is in flight. -/
theorem run_some_parts (u : UploadRequest) (r0 : Response) (x0 : ParsedXml) (raw : String)
    (parts : List (Response × ParsedXml)) (hx : x0.uploadId = some raw)
    (hparts : parts.length < (chunkLoop u.payload).length) :
    run (_multipartUpload u) (CbArgs.success r0 x0 :: successes parts)
      = partState u (encodeURIComponent raw) (etagsOf parts) parts.length := by
  rw [run_cons, deliver_initiate_success u r0 x0 raw hx (by omega),
    run_parts u _ parts [] 0 (by omega)]
  simp

/-! ## The sequence of exchanges when every exchange succeeds -/

/-- C2: when every exchange succeeds, a payload shorter than 5 MiB gives exactly
one request, a PUT to the key with the whole payload as body, and the callback
receives its result; a payload of 5 MiB or more gives one POST to
`key?uploads` without body, then for `i = 0 .. N-1` in increasing order, with
`N = ceil(L / 5 MiB)`, one PUT to `key?partNumber=(i+1)&uploadId=id` whose
`Content-Length` is the length of chunk `i` and whose body is chunk `i`, then
one POST to `key?uploadId=id`, and the callback receives the completion
response. Here `id` is the percent-encoded upload id of the initiate response. -/
theorem upload_exchange_sequence (u : UploadRequest) (r1 : Response) (x1 : ParsedXml)
    (r0 : Response) (x0 : ParsedXml) (raw : String) (parts : List (Response × ParsedXml))
    (rc : Response) (xc : ParsedXml) :
    (u.payload.length < 5 * 1024 * 1024 →
      (upload u).requests
          = [{ method := .PUT, url := u.key, headers := singleHeaders u,
               content := .buffer u.payload }] ∧
      (run (upload u) [CbArgs.success r1 x1]).requests
          = [{ method := .PUT, url := u.key, headers := singleHeaders u,
               content := .buffer u.payload }] ∧
      (run (upload u) [CbArgs.success r1 x1]).callbacks = [CbArgs.success r1 x1] ∧
      (run (upload u) [CbArgs.success r1 x1]).pending = none ∧
      (run (upload u) [CbArgs.success r1 x1]).crashed = false) ∧
    (5 * 1024 * 1024 ≤ u.payload.length → x0.uploadId = some raw →
      parts.length = ceilDiv u.payload.length (5 * 1024 * 1024) →
      (run (upload u)
          (CbArgs.success r0 x0 :: successes parts ++ [CbArgs.success rc xc])).requests
        = [{ method := .POST, url := u.key ++ "?uploads", headers := u.headers.getD [],
             content := .null }]
          ++ (List.range (ceilDiv u.payload.length (5 * 1024 * 1024))).map (fun i =>
              { method := .PUT,
                url := u.key ++ "?partNumber=" ++ toString (i + 1) ++ "&uploadId="
                  ++ encodeURIComponent raw,
                headers := [("Content-Length", .num
                  (slice u.payload (i * (5 * 1024 * 1024))
                    (min u.payload.length ((i + 1) * (5 * 1024 * 1024)))).length)],
                content := .buffer
                  (slice u.payload (i * (5 * 1024 * 1024))
                    (min u.payload.length ((i + 1) * (5 * 1024 * 1024)))) })
          ++ [{ method := .POST, url := u.key ++ "?uploadId=" ++ encodeURIComponent raw,
                headers := [], content := .text (completeBody (etagsOf parts)) }] ∧
      (run (upload u)
          (CbArgs.success r0 x0 :: successes parts ++ [CbArgs.success rc xc])).callbacks
        = [{ err := none, res := some rc, xml := none }] ∧
      (run (upload u)
          (CbArgs.success r0 x0 :: successes parts ++ [CbArgs.success rc xc])).pending = none ∧
      (run (upload u)
          (CbArgs.success r0 x0 :: successes parts ++ [CbArgs.success rc xc])).crashed
        = false) := by
  constructor
  · intro hlen
    have hup : upload u = _singleUpload u := by
      unfold upload
      rw [if_pos hlen]
    rw [hup]
    exact ⟨rfl, rfl, rfl, rfl, rfl⟩
  · intro hlen hx hparts
    have hP : (5 * 1024 * 1024 : Nat) = partSize := rfl
    have hup : upload u = _multipartUpload u := by
      unfold upload
      rw [if_neg (by omega)]
    rw [hP, ← length_chunkLoop] at hparts
    rw [hup, run_append,
      run_all_parts u r0 x0 raw parts hx hlen hparts, run_cons, run_nil,
      deliver_complete_success, hP, ← length_chunkLoop]
    refine ⟨?_, rfl, rfl, rfl⟩
    show initiateRequest u ::
        (List.map (partRequest u (encodeURIComponent raw))
            (List.range (chunkLoop u.payload).length)
          ++ [completeRequest u (encodeURIComponent raw) (etagsOf parts)]) = _
    rw [List.singleton_append, List.cons_append]
    rfl

theorem length_twelveMiB : twelveMiB.payload.length = 12582912 :=
  List.length_replicate _ _

theorem length_fiveMiB : fiveMiB.payload.length = 5242880 :=
  List.length_replicate _ _

theorem upload_exchange_sequence_witness :
    ((run (upload oneMiB) [plainOk]).requests.map fun r => (r.method, r.url, r.headers))
      = [(.PUT, "key", [("Expect", .str "100-continue"), ("Content-Length", .num 1048576)])] ∧
    (run (upload oneMiB) [plainOk]).callbacks = [plainOk] ∧
    ((run (upload twelveMiB) (initiated :: successes threeParts ++ [plainOk])).requests.map
        fun r => (r.method, r.url, r.headers))
      = [(.POST, "key?uploads", []),
         (.PUT, "key?partNumber=1&uploadId=abc", [("Content-Length", .num 5242880)]),
         (.PUT, "key?partNumber=2&uploadId=abc", [("Content-Length", .num 5242880)]),
         (.PUT, "key?partNumber=3&uploadId=abc", [("Content-Length", .num 2097152)]),
         (.POST, "key?uploadId=abc", [])] ∧
    (run (upload twelveMiB) (initiated :: successes threeParts ++ [plainOk])).callbacks
      = [{ err := none, res := some { statusCode := 200, etag := none }, xml := none }] := by
  have h := upload_exchange_sequence twelveMiB { statusCode := 200, etag := none }
    { uploadId := none } { statusCode := 200, etag := none } { uploadId := some "abc" } "abc"
    threeParts { statusCode := 200, etag := none } { uploadId := none }
  have h1 := upload_exchange_sequence oneMiB { statusCode := 200, etag := none }
    { uploadId := none } { statusCode := 200, etag := none } { uploadId := some "abc" } "abc"
    threeParts { statusCode := 200, etag := none } { uploadId := none }
  obtain ⟨hreq, hcb, -, -⟩ := h.2 (by rw [length_twelveMiB]; decide) rfl
    (by rw [length_twelveMiB]; decide)
  obtain ⟨-, hreq1, hcb1, -, -⟩ := h1.1 (by rw [length_oneMiB]; decide)
  have hc : ceilDiv 12582912 (5 * 1024 * 1024) = 3 := by decide
  have hr : List.range 3 = [0, 1, 2] := by decide
  have hk : twelveMiB.key = "key" := rfl
  have hh : twelveMiB.headers = none := rfl
  have hk1 : oneMiB.key = "key" := rfl
  unfold initiated plainOk
  refine ⟨?_, ?_, ?_, hcb⟩
  · rw [hreq1, singleHeaders, length_oneMiB, headers_oneMiB, hk1]
    rfl
  · exact hcb1
  · rw [hreq, length_twelveMiB, hc, hr, hk, hh]
    simp only [List.map, List.cons_append, List.nil_append, length_slice, length_twelveMiB]
    have n1 : min (min 12582912 ((0 + 1) * (5 * 1024 * 1024))) 12582912
        - 0 * (5 * 1024 * 1024) = 5242880 := by decide
    have n2 : min (min 12582912 ((1 + 1) * (5 * 1024 * 1024))) 12582912
        - 1 * (5 * 1024 * 1024) = 5242880 := by decide
    have n3 : min (min 12582912 ((2 + 1) * (5 * 1024 * 1024))) 12582912
        - 2 * (5 * 1024 * 1024) = 2097152 := by decide
    have s0 : "key" ++ "?uploads" = "key?uploads" := by decide
    have s1 : "key" ++ "?partNumber=" ++ toString (0 + 1) ++ "&uploadId="
        ++ encodeURIComponent "abc" = "key?partNumber=1&uploadId=abc" := by decide
    have s2 : "key" ++ "?partNumber=" ++ toString (1 + 1) ++ "&uploadId="
        ++ encodeURIComponent "abc" = "key?partNumber=2&uploadId=abc" := by decide
    have s3 : "key" ++ "?partNumber=" ++ toString (2 + 1) ++ "&uploadId="
        ++ encodeURIComponent "abc" = "key?partNumber=3&uploadId=abc" := by decide
    have s4 : "key" ++ "?uploadId=" ++ encodeURIComponent "abc" = "key?uploadId=abc" := by
      decide
    rw [n1, n2, n3, s0, s1, s2, s3, s4]
    rfl

/-! ## The completion document -/

theorem join_append_singleton (l : List String) (x : String) :
    String.join (l ++ [x]) = String.join l ++ x := by
  simp [String.join, List.foldl_append]

theorem partLoop_eq (etags : List (Option String)) (body : String) (n : Nat) :
    (List.range n).foldl
      (fun body i =>
        (((body ++ "\t<Part>\n")
          ++ ("\t\t<PartNumber>" ++ toString (i + 1) ++ "</PartNumber>\n"))
          ++ ("\t\t<ETag>\"" ++ jsString (etags.getD i none) ++ "\"</ETag>\n"))
          ++ "\t</Part>\n")
      body
    = body ++ String.join
        ((List.range n).map fun i => partEntry i (jsString (etags.getD i none))) := by
  induction n with
  | zero =>
    show body = body ++ String.join []
    rw [show String.join [] = "" from rfl, String.append_empty]
  | succ n ih =>
    rw [List.range_succ, List.foldl_append, List.map_append, ih]
    simp only [List.foldl_cons, List.foldl_nil, List.map_cons, List.map_nil]
    rw [join_append_singleton]
    unfold partEntry
    simp only [String.append_assoc]

theorem entries_eq_enum (es : List String) (g : Nat → String → String) :
    ((List.range (es.map some).length).map fun i => g i (jsString ((es.map some).getD i none)))
      = es.enum.map fun p => g p.1 p.2 := by
  apply List.ext_getElem?
  intro n
  rw [List.getElem?_map, List.getElem?_map, List.getElem?_enum]
  by_cases hn : n < es.length
  · rw [List.getElem?_range (by simpa using hn)]
    simp [List.getD, List.getElem?_map, List.getElem?_eq_getElem hn, jsString]
  · rw [List.getElem?_eq_none (by simpa using hn), List.getElem?_eq_none (by simpa using hn)]
    rfl

theorem completeBody_eq (es : List String) :
    completeBody (es.map some)
      = "<?xml version=\"1.0\" encoding=\"UTF-8\"?>\n<CompleteMultipartUpload>\n"
          ++ String.join (es.enum.map fun p => partEntry p.1 p.2)
          ++ "</CompleteMultipartUpload>" := by
  unfold completeBody
  simp only []
  rw [partLoop_eq, entries_eq_enum es partEntry]

/-- C4: in a multipart upload whose `N` parts succeeded with the ETag header
values `es` (in chunk order), the request made after the last part is the POST
to `key?uploadId=id` whose body is the XML prologue and the opening
`CompleteMultipartUpload` tag, then one `Part` entry for each `i = 0 .. N-1` in
increasing order holding `PartNumber` `i+1` and the quoted ETag of chunk `i`,
then the closing tag: exactly `N` entries, numbered from 1, in chunk order. -/
theorem completion_document (u : UploadRequest) (r0 : Response) (x0 : ParsedXml)
    (raw : String) (parts : List (Response × ParsedXml)) (es : List String)
    (hlen : 5 * 1024 * 1024 ≤ u.payload.length) (hx : x0.uploadId = some raw)
    (hparts : parts.length = ceilDiv u.payload.length (5 * 1024 * 1024))
    (hes : etagsOf parts = es.map some) :
    (run (upload u) (CbArgs.success r0 x0 :: successes parts)).requests.getLast?
      = some
          { method := .POST
            url := u.key ++ "?uploadId=" ++ encodeURIComponent raw
            headers := []
            content := .text
              ("<?xml version=\"1.0\" encoding=\"UTF-8\"?>\n<CompleteMultipartUpload>\n"
                ++ String.join (es.enum.map fun p =>
                    "\t<Part>\n"
                      ++ ("\t\t<PartNumber>" ++ toString (p.1 + 1) ++ "</PartNumber>\n")
                      ++ ("\t\t<ETag>\"" ++ p.2 ++ "\"</ETag>\n")
                      ++ "\t</Part>\n")
                ++ "</CompleteMultipartUpload>") } ∧
    (run (upload u) (CbArgs.success r0 x0 :: successes parts)).pending = some .complete ∧
    es.length = ceilDiv u.payload.length (5 * 1024 * 1024) := by
  have hP : (5 * 1024 * 1024 : Nat) = partSize := rfl
  have hup : upload u = _multipartUpload u := by
    unfold upload
    rw [if_neg (by omega)]
  have hl : es.length = parts.length := by
    have := congrArg List.length hes
    rw [length_etagsOf, List.length_map] at this
    exact this.symm
  rw [hP, ← length_chunkLoop] at hparts
  rw [hup, run_all_parts u r0 x0 raw parts hx hlen hparts, hes, hP, ← length_chunkLoop]
  refine ⟨?_, rfl, hl.trans hparts⟩
  show (initiateRequest u ::
      (List.map (partRequest u (encodeURIComponent raw))
          (List.range (chunkLoop u.payload).length)
        ++ [completeRequest u (encodeURIComponent raw) (es.map some)])).getLast? = _
  rw [← List.cons_append, List.getLast?_append, List.getLast?_singleton]
  unfold completeRequest
  rw [completeBody_eq]
  rfl

theorem completion_document_witness :
    (run (upload twelveMiB) (initiated :: successes threeParts)).requests.getLast?
      = some
          { method := .POST
            url := "key?uploadId=abc"
            headers := []
            content := .text
              ("<?xml version=\"1.0\" encoding=\"UTF-8\"?>\n<CompleteMultipartUpload>\n"
                ++ "\t<Part>\n\t\t<PartNumber>1</PartNumber>\n\t\t<ETag>\"e1\"</ETag>\n\t</Part>\n"
                ++ "\t<Part>\n\t\t<PartNumber>2</PartNumber>\n\t\t<ETag>\"e2\"</ETag>\n\t</Part>\n"
                ++ "\t<Part>\n\t\t<PartNumber>3</PartNumber>\n\t\t<ETag>\"e3\"</ETag>\n\t</Part>\n"
                ++ "</CompleteMultipartUpload>") } := by
  have h := completion_document twelveMiB { statusCode := 200, etag := none }
    { uploadId := some "abc" } "abc" threeParts ["e1", "e2", "e3"]
    (by rw [length_twelveMiB]; decide) rfl (by rw [length_twelveMiB]; decide) rfl
  have hk : twelveMiB.key = "key" := rfl
  have hu : "key" ++ "?uploadId=" ++ encodeURIComponent "abc" = "key?uploadId=abc" := by
    decide
  unfold initiated
  rw [h.1, hk, hu]
  rfl

/-! ## Reachable states of a multipart upload -/

theorem filter_put_map_partRequest (u : UploadRequest) (id : String) (l : List Nat) :
    (l.map (partRequest u id)).filter (fun r => decide (r.method = .PUT))
      = l.map (partRequest u id) := by
  induction l with
  | nil => rfl
  | cons a l ih =>
    rw [List.map_cons, List.filter_cons_of_pos (by rfl), ih]

theorem partPuts_partState (u : UploadRequest) (id : String) (etags : List (Option String))
    (j : Nat) :
    partPuts (partState u id etags j) = (List.range (j + 1)).map (partRequest u id) := by
  show List.filter _ (initiateRequest u :: _) = _
  rw [List.filter_cons_of_neg (by simp [initiateRequest]), filter_put_map_partRequest]

theorem partPuts_completingState (u : UploadRequest) (id : String)
    (etags : List (Option String)) :
    partPuts (completingState u id etags)
      = (List.range (chunkLoop u.payload).length).map (partRequest u id) := by
  show List.filter _ (initiateRequest u :: (_ ++ [completeRequest u id etags])) = _
  rw [List.filter_cons_of_neg (by simp [initiateRequest]), List.filter_append,
    filter_put_map_partRequest, List.filter_cons_of_neg (by simp [completeRequest])]
  exact List.append_nil _

theorem partPuts_cleanup (s : MState) (e : ErrVal) : partPuts (cleanup s e) = partPuts s := by
  show List.filter _ (s.requests ++ [_]) = _
  rw [List.filter_append, List.filter_cons_of_neg (by simp)]
  exact List.append_nil _

theorem framed_multipartUpload (u : UploadRequest) : Framed u (_multipartUpload u) :=
  ⟨rfl, Nat.zero_le _, 0, rfl, Nat.le_refl _, Nat.zero_le _⟩

theorem framed_partState (u : UploadRequest) (id : String) (etags : List (Option String))
    (j : Nat) (he : etags.length = j) (hj : j < (chunkLoop u.payload).length) :
    Framed u (partState u id etags j) := by
  refine ⟨rfl, ?_, j + 1, partPuts_partState u id etags j, ?_, ?_⟩
  · show etags.length ≤ _
    omega
  · show etags.length ≤ _
    omega
  · show j + 1 ≤ etags.length + 1
    omega

theorem framed_callCb (u : UploadRequest) (s : MState) (a : CbArgs) (h : Framed u s) :
    Framed u (callCb s a) := h

theorem framed_throwTypeError (u : UploadRequest) (s : MState) (h : Framed u s) :
    Framed u (throwTypeError s) := h

theorem framed_cleanup (u : UploadRequest) (s : MState) (e : ErrVal) (h : Framed u s) :
    Framed u (cleanup s e) := by
  obtain ⟨h1, h2, m, h3, h4⟩ := h
  refine ⟨h1, h2, m, ?_, h4⟩
  rw [partPuts_cleanup]
  exact h3

theorem quiet_callCb (u : UploadRequest) (s : MState) (a : CbArgs) (h : Framed u s) :
    Quiet u (callCb s a) :=
  ⟨framed_callCb u s a h, Or.inr (Or.inr rfl)⟩

theorem quiet_throwTypeError (u : UploadRequest) (s : MState) (h : Framed u s) :
    Quiet u (throwTypeError s) :=
  ⟨framed_throwTypeError u s h, Or.inr (Or.inr rfl)⟩

theorem quiet_cleanup (u : UploadRequest) (s : MState) (e : ErrVal) (h : Framed u s) :
    Quiet u (cleanup s e) :=
  ⟨framed_cleanup u s e h, Or.inr (Or.inl ⟨e, rfl⟩)⟩

theorem deliver_of_complete (s : MState) (a : CbArgs) (h : s.pending = some .complete) :
    deliver s a = onComplete s a := by
  unfold deliver
  rw [h]
  rfl

theorem deliver_of_cleanup (s : MState) (a : CbArgs) (e : ErrVal)
    (h : s.pending = some (.cleanup e)) :
    deliver s a = callCb s { err := some e, res := none, xml := none } := by
  unfold deliver
  rw [h]
  rfl

theorem deliver_of_none (s : MState) (a : CbArgs) (h : s.pending = none) :
    deliver s a = s := by
  unfold deliver
  rw [h]

theorem partSuccess_of_complete (s : MState) (o : Outcome) (h : s.pending = some .complete) :
    partSuccess s o = [] := by
  unfold partSuccess
  rw [h]

theorem partSuccess_of_cleanup (s : MState) (o : Outcome) (e : ErrVal)
    (h : s.pending = some (.cleanup e)) : partSuccess s o = [] := by
  unfold partSuccess
  rw [h]

theorem partSuccess_of_none (s : MState) (o : Outcome) (h : s.pending = none) :
    partSuccess s o = [] := by
  unfold partSuccess
  rw [h]

/-- One report delivered to the initiate callback. -/
theorem reach_of_initiate (u : UploadRequest) (o : Outcome) :
    Reach u (deliver (_multipartUpload u) o.args) ∧
    (deliver (_multipartUpload u) o.args).etags
      = (_multipartUpload u).etags ++ partSuccess (_multipartUpload u) o := by
  have hd : ∀ a, deliver (_multipartUpload u) a = onInitiate (_multipartUpload u) a :=
    fun _ => rfl
  have hF := framed_multipartUpload u
  cases o with
  | failure e =>
    have ha : (Outcome.failure e).args = CbArgs.failure e := rfl
    rw [ha, hd]
    cases ht : e.truthy with
    | true =>
      rw [onInitiate_of_truthy _ (CbArgs.failure e) e (truthyErr_some e ht)]
      exact ⟨Or.inr (Or.inr (quiet_callCb u _ _ hF)), rfl⟩
    | false =>
      rw [onInitiate_of_falsy _ (CbArgs.failure e) (truthyErr_falsy e ht)]
      exact ⟨Or.inr (Or.inr (quiet_throwTypeError u _ hF)), rfl⟩
  | success r x =>
    have ha : (Outcome.success r x).args = CbArgs.success r x := rfl
    rw [ha]
    cases hx : x.uploadId with
    | none =>
      have hb : ((CbArgs.success r x).xml.bind fun x => x.uploadId) = none := hx
      rw [hd, onInitiate_of_falsy _ (CbArgs.success r x) rfl]
      simp only [hb]
      exact ⟨Or.inr (Or.inr (quiet_throwTypeError u _ hF)), rfl⟩
    | some raw =>
      by_cases hN : 0 < (chunkLoop u.payload).length
      · rw [deliver_initiate_success u r x raw hx hN]
        exact ⟨Or.inr (Or.inl ⟨_, [], 0, rfl, rfl, hN⟩), rfl⟩
      · have hb : ((CbArgs.success r x).xml.bind fun x => x.uploadId) = some raw := hx
        rw [hd, onInitiate_of_falsy _ (CbArgs.success r x) rfl]
        simp only [hb]
        rw [uploadChunk_of_none _ 0
          (List.getElem?_eq_none (Nat.le_of_not_lt hN) : (chunkLoop u.payload)[0]? = none)]
        exact ⟨Or.inr (Or.inr (quiet_throwTypeError u _
          ⟨rfl, Nat.zero_le _, 0, rfl, Nat.le_refl _, Nat.zero_le _⟩)), rfl⟩

/-- One report delivered to the callback of part `j`. -/
theorem reach_of_part (u : UploadRequest) (id : String) (etags : List (Option String))
    (j : Nat) (he : etags.length = j) (hj : j < (chunkLoop u.payload).length) (o : Outcome) :
    Reach u (deliver (partState u id etags j) o.args) ∧
    (deliver (partState u id etags j) o.args).etags
      = (partState u id etags j).etags ++ partSuccess (partState u id etags j) o := by
  have hd : ∀ a, deliver (partState u id etags j) a = onPart (partState u id etags j) j a :=
    fun _ => rfl
  have hF := framed_partState u id etags j he hj
  cases o with
  | failure e =>
    have ha : (Outcome.failure e).args = CbArgs.failure e := rfl
    rw [ha, hd]
    cases ht : e.truthy with
    | true =>
      rw [onPart_of_truthy _ _ (CbArgs.failure e) e (truthyErr_some e ht)]
      exact ⟨Or.inr (Or.inr (quiet_cleanup u _ e hF)), (List.append_nil _).symm⟩
    | false =>
      rw [onPart_of_falsy _ _ (CbArgs.failure e) (truthyErr_falsy e ht)]
      exact ⟨Or.inr (Or.inr (quiet_throwTypeError u _ hF)), (List.append_nil _).symm⟩
  | success r x =>
    have ha : (Outcome.success r x).args = CbArgs.success r x := rfl
    rw [ha]
    by_cases hlast : j + 1 < (chunkLoop u.payload).length
    · rw [deliver_part_success u id etags j r x hlast]
      refine ⟨Or.inr (Or.inl ⟨id, _, j + 1, rfl, ?_, hlast⟩), rfl⟩
      rw [List.length_append, he]
      rfl
    · have hN : j + 1 = (chunkLoop u.payload).length := by omega
      rw [deliver_last_part_success u id etags j r x hN]
      refine ⟨Or.inr (Or.inr ⟨⟨rfl, ?_, (chunkLoop u.payload).length,
        partPuts_completingState u id _, ?_, ?_⟩, Or.inl rfl⟩), rfl⟩
      · show (etags ++ [r.etag]).length ≤ _
        rw [List.length_append, he, ← hN]
        exact Nat.le_refl _
      · show (etags ++ [r.etag]).length ≤ _
        rw [List.length_append, he, ← hN]
        exact Nat.le_refl _
      · show _ ≤ (etags ++ [r.etag]).length + 1
        rw [List.length_append, he, ← hN]
        exact Nat.le_succ _

/-- One report delivered in a quiet state. -/
theorem reach_of_quiet (u : UploadRequest) (s : MState) (h : Quiet u s) (o : Outcome) :
    Reach u (deliver s o.args) ∧ (deliver s o.args).etags = s.etags ++ partSuccess s o := by
  obtain ⟨hF, hp | ⟨e0, hp⟩ | hp⟩ := h
  · rw [deliver_of_complete s _ hp, partSuccess_of_complete s o hp, List.append_nil]
    cases o with
    | failure e =>
      have ha : (Outcome.failure e).args = CbArgs.failure e := rfl
      rw [ha]
      cases ht : e.truthy with
      | true =>
        rw [onComplete_of_truthy _ (CbArgs.failure e) e (truthyErr_some e ht)]
        exact ⟨Or.inr (Or.inr (quiet_cleanup u _ e hF)), rfl⟩
      | false =>
        rw [onComplete_of_falsy _ (CbArgs.failure e) (truthyErr_falsy e ht)]
        exact ⟨Or.inr (Or.inr (quiet_callCb u _ _ hF)), rfl⟩
    | success r x =>
      have ha : (Outcome.success r x).args = CbArgs.success r x := rfl
      rw [ha, onComplete_of_falsy _ (CbArgs.success r x) rfl]
      exact ⟨Or.inr (Or.inr (quiet_callCb u _ _ hF)), rfl⟩
  · rw [deliver_of_cleanup s _ e0 hp, partSuccess_of_cleanup s o e0 hp, List.append_nil]
    exact ⟨Or.inr (Or.inr (quiet_callCb u _ _ hF)), rfl⟩
  · rw [deliver_of_none s _ hp, partSuccess_of_none s o hp, List.append_nil]
    exact ⟨Or.inr (Or.inr ⟨hF, Or.inr (Or.inr hp)⟩), rfl⟩

/-- One report delivered in a reachable state. -/
theorem reach_deliver (u : UploadRequest) (s : MState) (h : Reach u s) (o : Outcome) :
    Reach u (deliver s o.args) ∧ (deliver s o.args).etags = s.etags ++ partSuccess s o := by
  rcases h with rfl | ⟨id, etags, j, rfl, he, hj⟩ | hq
  · exact reach_of_initiate u o
  · exact reach_of_part u id etags j he hj o
  · exact reach_of_quiet u s hq o

theorem reach_run (u : UploadRequest) (outcomes : List Outcome) :
    ∀ s, Reach u s →
      Reach u (run s (outcomes.map Outcome.args)) ∧
      (run s (outcomes.map Outcome.args)).etags = s.etags ++ partSuccesses s outcomes := by
  induction outcomes with
  | nil =>
    intro s h
    exact ⟨h, (List.append_nil _).symm⟩
  | cons o os ih =>
    intro s h
    obtain ⟨h1, h2⟩ := reach_deliver u s h o
    obtain ⟨h3, h4⟩ := ih _ h1
    refine ⟨h3, ?_⟩
    show (run (deliver s o.args) (os.map Outcome.args)).etags
      = s.etags ++ (partSuccess s o ++ partSuccesses (deliver s o.args) os)
    rw [h4, h2, List.append_assoc]

theorem reach_multipartUpload (u : UploadRequest) (outcomes : List Outcome) :
    Reach u (run (_multipartUpload u) (outcomes.map Outcome.args)) :=
  (reach_run u outcomes _ (Or.inl rfl)).1

theorem framed_of_reach (u : UploadRequest) (s : MState) (h : Reach u s) : Framed u s := by
  rcases h with rfl | ⟨id, etags, j, rfl, he, hj⟩ | hq
  · exact framed_multipartUpload u
  · exact framed_partState u id etags j he hj
  · exact hq.1

theorem part_in_flight_of_reach (u : UploadRequest) (s : MState) (h : Reach u s) (j : Nat)
    (hp : s.pending = some (.part j)) :
    s.etags.length = j ∧ j < (chunkLoop u.payload).length ∧
      partPuts s = (List.range (j + 1)).map (partRequest u s.upload_id) := by
  rcases h with rfl | ⟨id, etags, j0, rfl, he, hj⟩ | hq
  · exact absurd hp (by simp [_multipartUpload])
  · have hjj : j0 = j := by
      have h1 : some (Cont.part j0) = some (Cont.part j) := hp
      injection h1 with h2
      injection h2
    subst hjj
    exact ⟨he, hj, partPuts_partState u id etags j0⟩
  · rcases hq.2 with h1 | ⟨e, h1⟩ | h1 <;> rw [h1] at hp <;> simp at hp

/-- The invariant of `etags` in the runs in which every `_request` call reports
exactly once: `etags` holds the ETags of the part exchanges that have reported
success so far, in the order of the reports; it has at most `N` entries; an
entry is appended exactly when the part in flight reports success; while the
request of part `j` is in flight `etags` has exactly `j` entries and the part
requests made so far are those of the parts `0 .. j` in this order; in every
state the part requests made are those of the parts `0 .. m-1` in this order,
where `m` is the number of ETags or one more. -/
theorem etags_invariant (u : UploadRequest) (outcomes : List Outcome) :
    (run (_multipartUpload u) (outcomes.map Outcome.args)).etags
      = partSuccesses (_multipartUpload u) outcomes ∧
    (run (_multipartUpload u) (outcomes.map Outcome.args)).etags.length
      ≤ (chunkLoop u.payload).length ∧
    (∀ o, (run (_multipartUpload u) ((outcomes ++ [o]).map Outcome.args)).etags
      = (run (_multipartUpload u) (outcomes.map Outcome.args)).etags
          ++ partSuccess (run (_multipartUpload u) (outcomes.map Outcome.args)) o) ∧
    (∀ j, (run (_multipartUpload u) (outcomes.map Outcome.args)).pending = some (.part j) →
      (run (_multipartUpload u) (outcomes.map Outcome.args)).etags.length = j ∧
      j < (chunkLoop u.payload).length ∧
      partPuts (run (_multipartUpload u) (outcomes.map Outcome.args))
        = (List.range (j + 1)).map (partRequest u
            (run (_multipartUpload u) (outcomes.map Outcome.args)).upload_id)) ∧
    (∃ m, partPuts (run (_multipartUpload u) (outcomes.map Outcome.args))
        = (List.range m).map (partRequest u
            (run (_multipartUpload u) (outcomes.map Outcome.args)).upload_id) ∧
      (run (_multipartUpload u) (outcomes.map Outcome.args)).etags.length ≤ m ∧
      m ≤ (run (_multipartUpload u) (outcomes.map Outcome.args)).etags.length + 1) := by
  have hR := reach_multipartUpload u outcomes
  have hE := (reach_run u outcomes _ (Or.inl rfl)).2
  have hF := framed_of_reach u _ hR
  refine ⟨hE, hF.2.1, ?_, part_in_flight_of_reach u _ hR, hF.2.2⟩
  intro o
  rw [List.map_append, run_append]
  exact (reach_deliver u _ hR o).2

/-! ## The response handler -/

theorem onEnd_of_not_200 (c : Collaborators) (res : Response) (xml : String)
    (h : res.statusCode ≠ 200) : onEnd c res xml = .errorHandler (.body xml) := by
  have hb : (res.statusCode != 200) = true := bne_iff_ne.mpr h
  unfold onEnd
  rw [if_pos hb]

theorem onEnd_of_200 (c : Collaborators) (res : Response) (xml : String)
    (h : res.statusCode = 200) :
    onEnd c res xml =
      match c.parseString xml with
      | .error err => .errorHandler (.parseFailure err)
      | .ok parsedXml => .cb (.success res parsedXml) := by
  have hb : ¬ (res.statusCode != 200) = true := fun hb => bne_iff_ne.mp hb h
  unfold onEnd
  rw [if_neg hb]

theorem onEnd_of_ok (c : Collaborators) (res : Response) (xml : String) (parsed : ParsedXml)
    (h : res.statusCode = 200) (hp : c.parseString xml = .ok parsed) :
    onEnd c res xml = .cb (.success res parsed) := by
  rw [onEnd_of_200 c res xml h, hp]

theorem onEnd_of_rejected (c : Collaborators) (res : Response) (xml : String) (err : String)
    (h : res.statusCode = 200) (hp : c.parseString xml = .error err) :
    onEnd c res xml = .errorHandler (.parseFailure err) := by
  rw [onEnd_of_200 c res xml h, hp]

theorem onEnd_cb (c : Collaborators) (res : Response) (xml : String) (args : CbArgs)
    (h : onEnd c res xml = .cb args) :
    res.statusCode = 200 ∧ ∃ parsed, c.parseString xml = .ok parsed ∧
      args = .success res parsed := by
  by_cases hs : res.statusCode = 200
  · refine ⟨hs, ?_⟩
    cases hp : c.parseString xml with
    | error err =>
      rw [onEnd_of_rejected c res xml err hs hp] at h
      cases h
    | ok parsed =>
      rw [onEnd_of_ok c res xml parsed hs hp] at h
      injection h with h1
      exact ⟨parsed, rfl, h1.symm⟩
  · rw [onEnd_of_not_200 c res xml hs] at h
    cases h

theorem errorHandler_fresh (c : Collaborators) (st : OpState) (a : Nat) (at_ : Attempt)
    (err : ErrVal) (h : st.attempts[a]? = some at_) (hh : at_.handledError = false) :
    errorHandler c st a err =
      if c.retry st.retries err = true then
        startAttempt { st with
          attempts := st.attempts.set a { handledError := true, timerDue := false }
          retries := st.retries + 1
          log := st.log ++ [.reqEnd a, .clearTimeout a, .retry a err (c.retry st.retries err)] }
      else
        { st with
          attempts := st.attempts.set a { handledError := true, timerDue := false }
          retries := st.retries + 1
          log := (st.log ++ [.reqEnd a, .clearTimeout a, .retry a err (c.retry st.retries err)])
            ++ [.cb a (.failure err)] } := by
  unfold errorHandler
  rw [h]
  simp only [hh, Bool.false_eq_true, if_false]

theorem errorHandler_handled (c : Collaborators) (st : OpState) (a : Nat) (at_ : Attempt)
    (err : ErrVal) (h : st.attempts[a]? = some at_) (hh : at_.handledError = true) :
    errorHandler c st a err = st := by
  unfold errorHandler
  rw [h]
  simp only [hh, if_true]

theorem mem_log_startAttempt (st : OpState) (e : Effect) (h : e ∈ st.log) :
    e ∈ (startAttempt st).log := by
  unfold startAttempt
  simp only [List.mem_append]
  exact Or.inl (Or.inl (Or.inl h))

theorem retry_mem_errorHandler (c : Collaborators) (st : OpState) (a : Nat) (at_ : Attempt)
    (err : ErrVal) (h : st.attempts[a]? = some at_) (hh : at_.handledError = false) :
    Effect.retry a err (c.retry st.retries err) ∈ (errorHandler c st a err).log := by
  rw [errorHandler_fresh c st a at_ err h hh]
  by_cases hr : c.retry st.retries err = true
  · rw [if_pos hr]
    apply mem_log_startAttempt
    simp
  · rw [if_neg hr]
    simp

theorem step_responseEnd (c : Collaborators) (st : OpState) (a : Nat) (at_ : Attempt)
    (res : Response) (xml : String) (h : st.attempts[a]? = some at_) :
    step c st (.responseEnd a res xml) =
      match onEnd c res xml with
      | .errorHandler err => errorHandler c (clearTimer st a) a err
      | .cb args => { clearTimer st a with log := (clearTimer st a).log ++ [.cb a args] } := by
  simp only [step]
  rw [h]

theorem attempts_clearTimer (st : OpState) (a : Nat) (at_ : Attempt)
    (h : st.attempts[a]? = some at_) :
    (clearTimer st a).attempts[a]? = some { at_ with timerDue := false } := by
  show (List.modify _ a st.attempts)[a]? = _
  rw [List.getElem?_modify_eq, h]
  rfl

/-- C10: when a response has ended with status `s` and buffered body `b`, the
handler calls the success callback `(null, response, parsed)` exactly when `s`
is 200 and the parser accepts `b`; for every other status it calls the error
handler with `b` itself; for status 200 and a rejected body it calls the error
handler with the parser's error; and in an attempt whose error handler has not
run yet, that value is the one passed to the retry decision. -/
theorem response_end_decision (c : Collaborators) (res : Response) (xml : String) :
    ((∃ parsed, onEnd c res xml = .cb (.success res parsed)) ↔
      (res.statusCode = 200 ∧ ∃ parsed, c.parseString xml = .ok parsed)) ∧
    (∀ args, onEnd c res xml = .cb args →
      res.statusCode = 200 ∧ ∃ parsed, c.parseString xml = .ok parsed ∧
        args = .success res parsed) ∧
    (res.statusCode ≠ 200 → onEnd c res xml = .errorHandler (.body xml)) ∧
    (∀ err, res.statusCode = 200 → c.parseString xml = .error err →
      onEnd c res xml = .errorHandler (.parseFailure err)) ∧
    (∀ (st : OpState) (a : Nat) (at_ : Attempt) (err : ErrVal),
      st.attempts[a]? = some at_ → at_.handledError = false →
      onEnd c res xml = .errorHandler err →
      Effect.retry a err (c.retry st.retries err)
        ∈ (step c st (.responseEnd a res xml)).log) ∧
    (∀ (st : OpState) (a : Nat) (at_ : Attempt) (args : CbArgs),
      st.attempts[a]? = some at_ → onEnd c res xml = .cb args →
      (step c st (.responseEnd a res xml)).log
        = st.log ++ [.clearTimeout a, .cb a args]) := by
  refine ⟨⟨?_, ?_⟩, onEnd_cb c res xml, onEnd_of_not_200 c res xml, ?_, ?_, ?_⟩
  · rintro ⟨parsed, h⟩
    obtain ⟨hs, p, hp, -⟩ := onEnd_cb c res xml _ h
    exact ⟨hs, p, hp⟩
  · rintro ⟨hs, parsed, hp⟩
    exact ⟨parsed, onEnd_of_ok c res xml parsed hs hp⟩
  · intro err hs hp
    exact onEnd_of_rejected c res xml err hs hp
  · intro st a at_ err h hh he
    rw [step_responseEnd c st a at_ res xml h, he]
    exact retry_mem_errorHandler c (clearTimer st a) a _ err (attempts_clearTimer st a at_ h) hh
  · intro st a at_ args h he
    rw [step_responseEnd c st a at_ res xml h, he]
    show (st.log ++ [Effect.clearTimeout a]) ++ [Effect.cb a args] = _
    rw [List.append_assoc]
    rfl

/-! ## One retry decision for each attempt -/

theorem lt_length_of_getElem? {α : Type} (l : List α) (n : Nat) (x : α)
    (h : l[n]? = some x) : n < l.length := by
  by_contra hc
  rw [List.getElem?_eq_none (Nat.le_of_not_lt hc)] at h
  cases h

theorem decisions_append (l1 l2 : List Effect) :
    decisions (l1 ++ l2) = decisions l1 ++ decisions l2 :=
  List.filter_append _ _

theorem decisions_startAttempt (st : OpState) :
    decisions (startAttempt st).log = decisions st.log := by
  unfold startAttempt
  simp only [decisions_append]
  have h1 : ∀ (a : Nat) (m : Method) (u : String) (h : Headers),
      decisions [Effect.knoxRequest a m u h] = [] := fun _ _ _ _ => rfl
  have h2 : ∀ a : Nat, decisions [Effect.reqEnd a] = [] := fun _ => rfl
  have h3 : decisions (if st.request.content.truthy = true then
      [Effect.reqWrite st.attempts.length st.request.content] else []) = [] := by
    by_cases hc : st.request.content.truthy = true
    · rw [if_pos hc]
      rfl
    · rw [if_neg hc]
      rfl
  rw [h1, h2, h3]
  simp only [List.append_nil]

theorem getElem?_startAttempt (st : OpState) (a : Nat) (h : a < st.attempts.length) :
    (startAttempt st).attempts[a]? = st.attempts[a]? := by
  show (st.attempts ++ [_])[a]? = _
  exact List.getElem?_append_left h

theorem errorHandler_first (c : Collaborators) (st : OpState) (a : Nat) (at_ : Attempt)
    (err : ErrVal) (h : st.attempts[a]? = some at_) (hh : at_.handledError = false) :
    Handled (errorHandler c st a err) a ∧
    decisions (errorHandler c st a err).log
      = decisions st.log ++
          (Effect.retry a err (c.retry st.retries err) ::
            if c.retry st.retries err = true then [] else [Effect.cb a (.failure err)]) := by
  have hlt := lt_length_of_getElem? _ _ _ h
  have hset : (st.attempts.set a { handledError := true, timerDue := false })[a]?
      = some { handledError := true, timerDue := false } :=
    List.getElem?_set_self hlt
  have hd : decisions [Effect.reqEnd a, Effect.clearTimeout a,
      Effect.retry a err (c.retry st.retries err)]
        = [Effect.retry a err (c.retry st.retries err)] := rfl
  rw [errorHandler_fresh c st a at_ err h hh]
  by_cases hr : c.retry st.retries err = true
  · rw [if_pos hr, if_pos hr]
    constructor
    · unfold Handled
      rw [getElem?_startAttempt _ _ (by rw [List.length_set]; exact hlt)]
      exact hset
    · rw [decisions_startAttempt]
      show decisions (st.log ++ _) = _
      rw [decisions_append, hd]
  · rw [if_neg hr, if_neg hr]
    constructor
    · exact hset
    · show decisions ((st.log ++ _) ++ [_]) = _
      rw [decisions_append, decisions_append, hd, List.append_assoc]
      rfl

theorem errorHandler_later (c : Collaborators) (st : OpState) (a : Nat) (err : ErrVal)
    (h : Handled st a) : errorHandler c st a err = st :=
  errorHandler_handled c st a _ err h rfl

theorem timeoutCallback_later (c : Collaborators) (st : OpState) (a : Nat) (h : Handled st a) :
    Handled (timeoutCallback c st a) a ∧
    decisions (timeoutCallback c st a).log = decisions st.log := by
  have h1 : Handled { st with log := st.log ++ [Effect.reqAbort a] } a := h
  unfold timeoutCallback
  rw [errorHandler_later c _ a _ h1]
  refine ⟨h1, ?_⟩
  show decisions (st.log ++ [Effect.reqAbort a]) = _
  rw [decisions_append]
  exact List.append_nil _

theorem timeoutCallback_first (c : Collaborators) (st : OpState) (a : Nat) (at_ : Attempt)
    (h : st.attempts[a]? = some at_) (hh : at_.handledError = false) :
    Handled (timeoutCallback c st a) a ∧
    decisions (timeoutCallback c st a).log
      = decisions st.log ++
          (Effect.retry a .timedOut (c.retry st.retries .timedOut) ::
            if c.retry st.retries .timedOut = true then []
            else [Effect.cb a (.failure .timedOut)]) := by
  unfold timeoutCallback
  obtain ⟨h1, h2⟩ := errorHandler_first c { st with log := st.log ++ [Effect.reqAbort a] } a at_
    .timedOut h hh
  refine ⟨h1, ?_⟩
  rw [h2]
  show decisions (st.log ++ [Effect.reqAbort a]) ++ _ = _
  rw [decisions_append, show decisions [Effect.reqAbort a] = [] from rfl, List.append_nil]

theorem step_timer_due (c : Collaborators) (st : OpState) (a : Nat) (at_ : Attempt)
    (h : st.attempts[a]? = some at_) (hd : at_.timerDue = true) :
    step c st (.timer a) =
      timeoutCallback c
        { st with attempts := st.attempts.set a { at_ with timerDue := false } } a := by
  simp only [step]
  rw [h]
  simp only [hd, if_true]

theorem step_timer_not_due (c : Collaborators) (st : OpState) (a : Nat) (at_ : Attempt)
    (h : st.attempts[a]? = some at_) (hd : at_.timerDue = false) :
    step c st (.timer a) = st := by
  simp only [step]
  rw [h]
  simp only [hd, Bool.false_eq_true, if_false]

theorem step_transportTimeout (c : Collaborators) (st : OpState) (a : Nat) (at_ : Attempt)
    (h : st.attempts[a]? = some at_) :
    step c st (.transportTimeout a) = timeoutCallback c st a := by
  simp only [step]
  rw [h]

theorem step_error (c : Collaborators) (st : OpState) (a : Nat) (message : String) :
    step c st (.error a message) = errorHandler c st a (.transport message) := rfl

theorem failureOf_timer (c : Collaborators) (a b : Nat) (err : ErrVal)
    (h : failureOf c a (.timer b) = some err) : b = a ∧ err = .timedOut := by
  by_cases hab : a = b
  · simp only [failureOf, if_pos hab, Option.some.injEq] at h
    exact ⟨hab.symm, h.symm⟩
  · simp only [failureOf, if_neg hab] at h
    cases h

theorem failureOf_transportTimeout (c : Collaborators) (a b : Nat) (err : ErrVal)
    (h : failureOf c a (.transportTimeout b) = some err) : b = a ∧ err = .timedOut := by
  by_cases hab : a = b
  · simp only [failureOf, if_pos hab, Option.some.injEq] at h
    exact ⟨hab.symm, h.symm⟩
  · simp only [failureOf, if_neg hab] at h
    cases h

theorem failureOf_error (c : Collaborators) (a b : Nat) (message : String) (err : ErrVal)
    (h : failureOf c a (.error b message) = some err) :
    b = a ∧ err = .transport message := by
  by_cases hab : a = b
  · simp only [failureOf, if_pos hab, Option.some.injEq] at h
    exact ⟨hab.symm, h.symm⟩
  · simp only [failureOf, if_neg hab] at h
    cases h

theorem failureOf_responseEnd (c : Collaborators) (a b : Nat) (res : Response) (xml : String)
    (err : ErrVal) (h : failureOf c a (.responseEnd b res xml) = some err) :
    b = a ∧ onEnd c res xml = .errorHandler err := by
  by_cases hab : a = b
  · simp only [failureOf, if_pos hab] at h
    refine ⟨hab.symm, ?_⟩
    cases hE : onEnd c res xml with
    | errorHandler e =>
      rw [hE] at h
      injection h with h1
      rw [h1]
    | cb args =>
      rw [hE] at h
      cases h
  · simp only [failureOf, if_neg hab] at h
    cases h

/-- The first failure event of an attempt: one retry decision, made on the error
of that event, followed by the call `cb(err)` exactly when the scheduler
declines. -/
theorem step_first (c : Collaborators) (st : OpState) (a : Nat) (ev : Event) (err : ErrVal)
    (h : st.attempts[a]? = some { handledError := false, timerDue := true })
    (hf : failureOf c a ev = some err) :
    Handled (step c st ev) a ∧
    decisions (step c st ev).log
      = decisions st.log ++
          (Effect.retry a err (c.retry st.retries err) ::
            if c.retry st.retries err = true then [] else [Effect.cb a (.failure err)]) := by
  have hlt := lt_length_of_getElem? _ _ _ h
  cases ev with
  | timer b =>
    obtain ⟨rfl, rfl⟩ := failureOf_timer c a b err hf
    rw [step_timer_due c st b _ h rfl]
    exact timeoutCallback_first c _ b { handledError := false, timerDue := false }
      (List.getElem?_set_self hlt) rfl
  | transportTimeout b =>
    obtain ⟨rfl, rfl⟩ := failureOf_transportTimeout c a b err hf
    rw [step_transportTimeout c st b _ h]
    exact timeoutCallback_first c st b _ h rfl
  | error b message =>
    obtain ⟨rfl, rfl⟩ := failureOf_error c a b message err hf
    rw [step_error]
    exact errorHandler_first c st b _ _ h rfl
  | responseEnd b res xml =>
    obtain ⟨rfl, hE⟩ := failureOf_responseEnd c a b res xml err hf
    rw [step_responseEnd c st b _ res xml h, hE]
    obtain ⟨h1, h2⟩ := errorHandler_first c (clearTimer st b) b _ err
      (attempts_clearTimer st b _ h) rfl
    refine ⟨h1, ?_⟩
    rw [h2]
    show decisions (st.log ++ [Effect.clearTimeout b]) ++ _ = _
    rw [decisions_append, show decisions [Effect.clearTimeout b] = [] from rfl,
      List.append_nil]
    rfl

/-- A later failure event of an attempt: no retry decision and no call of `cb`. -/
theorem step_later (c : Collaborators) (st : OpState) (a : Nat) (ev : Event) (err : ErrVal)
    (h : Handled st a) (hf : failureOf c a ev = some err) :
    Handled (step c st ev) a ∧ decisions (step c st ev).log = decisions st.log := by
  cases ev with
  | timer b =>
    obtain ⟨rfl, rfl⟩ := failureOf_timer c a b err hf
    rw [step_timer_not_due c st b _ h rfl]
    exact ⟨h, rfl⟩
  | transportTimeout b =>
    obtain ⟨rfl, rfl⟩ := failureOf_transportTimeout c a b err hf
    rw [step_transportTimeout c st b _ h]
    exact timeoutCallback_later c st b h
  | error b message =>
    obtain ⟨rfl, rfl⟩ := failureOf_error c a b message err hf
    rw [step_error, errorHandler_later c st b _ h]
    exact ⟨h, rfl⟩
  | responseEnd b res xml =>
    obtain ⟨rfl, hE⟩ := failureOf_responseEnd c a b res xml err hf
    have h1 : Handled (clearTimer st b) b := attempts_clearTimer st b _ h
    rw [step_responseEnd c st b _ res xml h, hE]
    show Handled (errorHandler c (clearTimer st b) b err) b ∧
      decisions (errorHandler c (clearTimer st b) b err).log = decisions st.log
    rw [errorHandler_later c _ b err h1]
    refine ⟨h1, ?_⟩
    show decisions (st.log ++ [Effect.clearTimeout b]) = _
    rw [decisions_append]
    exact List.append_nil _

theorem runEvents_later (c : Collaborators) (a : Nat) (events : List Event) :
    ∀ st, Handled st a → (∀ ev ∈ events, (failureOf c a ev).isSome = true) →
      Handled (runEvents c st events) a ∧
      decisions (runEvents c st events).log = decisions st.log := by
  induction events with
  | nil =>
    intro st h _
    exact ⟨h, rfl⟩
  | cons ev evs ih =>
    intro st h hall
    obtain ⟨err, herr⟩ := Option.isSome_iff_exists.mp (hall ev (List.mem_cons_self _ _))
    obtain ⟨h1, h2⟩ := step_later c st a ev err h herr
    obtain ⟨h3, h4⟩ := ih (step c st ev) h1 (fun e he => hall e (List.mem_cons_of_mem _ he))
    exact ⟨h3, h4.trans h2⟩

/-- C6: in an attempt whose error handler has not run, the first failure event
(manual timer, transport timeout hook, `error` event, non-200 response, body
rejected by the parser) makes exactly one retry decision, on the error of that
event, followed by the call `cb(err)` exactly when the scheduler declines; every
later failure event of the attempt adds no retry decision and no call of `cb`,
and a further call of `errorHandler` leaves the state as it is. -/
theorem one_retry_decision (c : Collaborators) (st : OpState) (a : Nat) (ev : Event)
    (evs : List Event) (err : ErrVal)
    (hfresh : st.attempts[a]? = some { handledError := false, timerDue := true })
    (hfirst : failureOf c a ev = some err)
    (hrest : ∀ e ∈ evs, (failureOf c a e).isSome = true) :
    decisions (step c st ev).log
      = decisions st.log ++
          (Effect.retry a err (c.retry st.retries err) ::
            if c.retry st.retries err = true then [] else [Effect.cb a (.failure err)]) ∧
    decisions (runEvents c st (ev :: evs)).log = decisions (step c st ev).log ∧
    (∀ err2, errorHandler c (runEvents c st (ev :: evs)) a err2
      = runEvents c st (ev :: evs)) := by
  obtain ⟨h1, h2⟩ := step_first c st a ev err hfresh hfirst
  obtain ⟨h3, h4⟩ := runEvents_later c a evs (step c st ev) h1 hrest
  exact ⟨h2, h4, fun err2 => errorHandler_later c _ a err2 h3⟩

theorem one_retry_decision_witness :
    decisions (runEvents decliningScheduler oneByteExchange
        (.error 0 "reset" :: failureStorm)).log
      = [Effect.retry 0 (.transport "reset") false,
         Effect.cb 0 (.failure (.transport "reset"))] := by
  have h := one_retry_decision decliningScheduler oneByteExchange 0 (.error 0 "reset")
    failureStorm (.transport "reset") (by decide) (by decide) (by decide)
  rw [h.2.1, h.1]
  decide

/-! ## Two calls of the callback -/

/-- C5 fails on the code: in a single upload of one byte, the response ends with
status 200 and a body the parser accepts, so the callback is called with the
result; the transport timeout hook then fires, `errorHandler` runs for the first
time, the scheduler declines, and the callback is called again, with
`ETIMEDOUT`. -/
theorem callback_called_twice :
    (upload oneByte).requests = [singleRequest oneByte] ∧
    (upload oneByte).pending = some .caller ∧
    singleUploadCalls decliningScheduler oneByte
        [.responseEnd 0 { statusCode := 200, etag := none } "<ok/>", .transportTimeout 0]
      = [CbArgs.success { statusCode := 200, etag := none } { uploadId := none },
         CbArgs.failure .timedOut] := by
  decide

/-! ## Abort after a failure -/

theorem upload_eq_multipartUpload (u : UploadRequest)
    (hlen : 5 * 1024 * 1024 ≤ u.payload.length) : upload u = _multipartUpload u := by
  unfold upload
  rw [if_neg (by omega)]

/-- A part fails with a truthy error `e` after the parts before it succeeded: no
further part request and no completion request are made, one abort request is
made, and the caller is called with `e` whatever the abort request reports. -/
theorem abort_after_part_failure (u : UploadRequest) (r0 : Response) (x0 : ParsedXml)
    (raw : String) (parts : List (Response × ParsedXml)) (e : ErrVal) (d : CbArgs)
    (hlen : 5 * 1024 * 1024 ≤ u.payload.length) (hx : x0.uploadId = some raw)
    (hparts : parts.length < (chunkLoop u.payload).length) (he : e.truthy = true) :
    run (upload u) (CbArgs.success r0 x0 :: successes parts ++ [CbArgs.failure e, d])
      = { partState u (encodeURIComponent raw) (etagsOf parts) parts.length with
          pending := none
          requests := (initiateRequest u ::
              (List.range (parts.length + 1)).map (partRequest u (encodeURIComponent raw)))
            ++ [abortRequest u (encodeURIComponent raw)]
          callbacks := [CbArgs.failure e] } := by
  rw [upload_eq_multipartUpload u hlen, run_append, run_some_parts u r0 x0 raw parts hx hparts,
    run_cons, deliver_part_failure u _ _ _ e he, run_cons, run_nil,
    deliver_of_cleanup _ d e rfl]
  rfl

/-- The completion fails with a truthy error `e` after every part succeeded: one
abort request is made and the caller is called with `e` whatever the abort
request reports. -/
theorem abort_after_complete_failure (u : UploadRequest) (r0 : Response) (x0 : ParsedXml)
    (raw : String) (parts : List (Response × ParsedXml)) (e : ErrVal) (d : CbArgs)
    (hlen : 5 * 1024 * 1024 ≤ u.payload.length) (hx : x0.uploadId = some raw)
    (hparts : parts.length = (chunkLoop u.payload).length) (he : e.truthy = true) :
    run (upload u) (CbArgs.success r0 x0 :: successes parts ++ [CbArgs.failure e, d])
      = { completingState u (encodeURIComponent raw) (etagsOf parts) with
          pending := none
          requests := (completingState u (encodeURIComponent raw) (etagsOf parts)).requests
            ++ [abortRequest u (encodeURIComponent raw)]
          callbacks := [CbArgs.failure e] } := by
  rw [upload_eq_multipartUpload u hlen, run_append,
    run_all_parts u r0 x0 raw parts hx hlen hparts,
    run_cons, deliver_complete_failure u _ _ e he, run_cons, run_nil,
    deliver_of_cleanup _ d e rfl]
  rfl

theorem cbCalls_append (l1 l2 : List Effect) :
    cbCalls (l1 ++ l2) = cbCalls l1 ++ cbCalls l2 := by
  induction l1 with
  | nil => rfl
  | cons e l ih =>
    cases e with
    | cb a args =>
      show args :: cbCalls (l ++ l2) = args :: cbCalls l ++ cbCalls l2
      rw [ih]
      rfl
    | _ => exact ih

theorem cbCalls_request (r : Request) : cbCalls (_request r).log = [] := by
  show cbCalls (([] ++ [_]) ++ (if r.content.truthy = true then [_] else []) ++ [_]) = []
  by_cases hc : r.content.truthy = true
  · rw [if_pos hc]
    rfl
  · rw [if_neg hc]
    rfl

/-- A response that ends with status 500 and an empty body, the scheduler
declining: `_request` calls `cb("")`. -/
theorem request_reports_empty_body (r : Request) :
    cbCalls (runEvents decliningScheduler (_request r)
        [.responseEnd 0 { statusCode := 500, etag := none } ""]).log
      = [CbArgs.failure (.body "")] := by
  have h0 : (_request r).attempts[0]? = some { handledError := false, timerDue := true } :=
    rfl
  have hE : onEnd decliningScheduler { statusCode := 500, etag := none } ""
      = .errorHandler (.body "") := rfl
  have hrun : runEvents decliningScheduler (_request r)
      [.responseEnd 0 { statusCode := 500, etag := none } ""]
        = step decliningScheduler (_request r)
            (.responseEnd 0 { statusCode := 500, etag := none } "") := rfl
  rw [hrun, step_responseEnd _ _ 0 _ _ _ h0, hE]
  show cbCalls (errorHandler decliningScheduler (clearTimer (_request r) 0) 0 _).log = _
  rw [errorHandler_fresh _ _ 0 _ _ (attempts_clearTimer _ 0 _ h0) rfl]
  show cbCalls (((_request r).log ++ [_]) ++ [_, _, _] ++ [_]) = _
  rw [cbCalls_append, cbCalls_append, cbCalls_append, cbCalls_request]
  rfl

theorem encode_abc : encodeURIComponent "abc" = "abc" := by decide

/-- C1 fails on the code when the error is falsy. A part response with status
500 and an empty body makes `_request` call `cb("")`. With a 5 MiB payload (one
part), the callback of part 1 then takes `""` for "no error", reads
`res.headers` of an undefined `res` and throws: no abort request is made and the
caller is never called. When instead the completion request reports `""`, the
caller is called with `(null, undefined)`, as on success, and no abort request
is made. -/
theorem empty_error_skips_cleanup :
    (∀ r, cbCalls (runEvents decliningScheduler (_request r)
        [.responseEnd 0 { statusCode := 500, etag := none } ""]).log
      = [CbArgs.failure (.body "")]) ∧
    (run (upload fiveMiB) [initiated, CbArgs.failure (.body "")]).requests
      = [initiateRequest fiveMiB, partRequest fiveMiB "abc" 0] ∧
    (run (upload fiveMiB) [initiated, CbArgs.failure (.body "")]).callbacks = [] ∧
    (run (upload fiveMiB) [initiated, CbArgs.failure (.body "")]).pending = none ∧
    (run (upload fiveMiB) [initiated, CbArgs.failure (.body "")]).crashed = true ∧
    (run (upload fiveMiB) [initiated, plainOk, CbArgs.failure (.body "")]).requests
      = [initiateRequest fiveMiB, partRequest fiveMiB "abc" 0,
         completeRequest fiveMiB "abc" [none]] ∧
    (run (upload fiveMiB) [initiated, plainOk, CbArgs.failure (.body "")]).callbacks
      = [{ err := none, res := none, xml := none }] ∧
    (run (upload fiveMiB) [initiated, plainOk, CbArgs.failure (.body "")]).pending = none := by
  have hlen : 5 * 1024 * 1024 ≤ fiveMiB.payload.length := by
    rw [length_fiveMiB]
  have hN : (chunkLoop fiveMiB.payload).length = 1 := by
    rw [length_chunkLoop, length_fiveMiB]
    decide
  have h1 : run (upload fiveMiB) [initiated, CbArgs.failure (.body "")]
      = { partState fiveMiB "abc" [] 0 with pending := none, crashed := true } := by
    rw [upload_eq_multipartUpload _ hlen, run_cons]
    unfold initiated
    rw [deliver_initiate_success fiveMiB _ _ "abc" rfl (by rw [hN]; decide), encode_abc,
      run_cons, run_nil, deliver_part_falsy fiveMiB "abc" [] 0 (.body "") rfl]
  have h2 : run (upload fiveMiB) [initiated, plainOk, CbArgs.failure (.body "")]
      = { completingState fiveMiB "abc" [none] with
          pending := none
          callbacks := [{ err := none, res := none, xml := none }] } := by
    rw [upload_eq_multipartUpload _ hlen, run_cons]
    unfold initiated plainOk
    rw [deliver_initiate_success fiveMiB _ _ "abc" rfl (by rw [hN]; decide), encode_abc,
      run_cons, deliver_last_part_success fiveMiB "abc" [] 0 _ _ (by rw [hN]),
      run_cons, run_nil, deliver_complete_falsy fiveMiB "abc" _ (.body "") rfl]
    rfl
  rw [h1, h2]
  refine ⟨request_reports_empty_body, rfl, rfl, rfl, rfl, ?_, rfl, rfl⟩
  show initiateRequest fiveMiB ::
    (List.map (partRequest fiveMiB "abc") (List.range (chunkLoop fiveMiB.payload).length)
      ++ [completeRequest fiveMiB "abc" [none]]) = _
  rw [hN]
  rfl

/-! ## The chunks of a 12 MiB payload -/

theorem chunkLoop_partition_witness :
    (chunkLoop twelveMiB.payload).length = 3 ∧
    (chunkLoop twelveMiB.payload).map List.length = [5242880, 5242880, 2097152] ∧
    (chunkLoop twelveMiB.payload).flatten = twelveMiB.payload := by
  have h := chunkLoop_partition twelveMiB.payload
  have hc : ceilDiv 12582912 (5 * 1024 * 1024) = 3 := by decide
  have hp : ceilDiv 12582912 partSize = 3 := hc
  have hr : List.range 3 = [0, 1, 2] := by decide
  refine ⟨?_, ?_, h.2.2.2⟩
  · rw [h.1, length_twelveMiB, hc]
  · unfold chunkLoop
    rw [chunksWith_eq_map, length_twelveMiB, hp, hr]
    simp only [List.map, length_slice, length_twelveMiB]
    have n1 : min (min 12582912 ((0 + 1) * partSize)) 12582912 - 0 * partSize = 5242880 := by
      decide
    have n2 : min (min 12582912 ((1 + 1) * partSize)) 12582912 - 1 * partSize = 5242880 := by
      decide
    have n3 : min (min 12582912 ((2 + 1) * partSize)) 12582912 - 2 * partSize = 2097152 := by
      decide
    rw [n1, n2, n3]

/-! ## Two reports for one part -/

theorem invoke_of_pending (s : MState) (k : Cont) (args : CbArgs) (h : s.pending = some k) :
    invoke s k args = deliver s args := by
  unfold deliver
  rw [h]

theorem runReports_cons (s : MState) (k : Cont) (args : CbArgs) (rs : List (Cont × CbArgs)) :
    runReports s ((k, args) :: rs) = runReports (invoke s k args) rs := rfl

theorem runReports_nil (s : MState) : runReports s [] = s := rfl

theorem chunks_completingState (u : UploadRequest) (id : String)
    (etags : List (Option String)) :
    (completingState u id etags).chunks = chunkLoop u.payload := rfl

theorem invoke_part (s : MState) (i : Nat) (args : CbArgs) :
    invoke s (.part i) args = onPart s i args := rfl

theorem onPart_success_last (s : MState) (i : Nat) (res : Response) (xml : ParsedXml)
    (h : i + 1 = s.chunks.length) :
    onPart s i (.success res xml) = finish { s with etags := s.etags ++ [res.etag] } := by
  rw [onPart_of_falsy s i (.success res xml) rfl]
  show (if i + 1 = s.chunks.length then _ else _) = _
  rw [if_pos h]

/-- C7 fails on the code. With a 5 MiB payload there is one chunk. The response
to the PUT of part 1 ends with status 200, so the part callback records the
ETag and makes the completion request; the transport timeout hook of that
attempt fires afterwards, `errorHandler` runs for the first time, the scheduler
accepts, and the response of the new attempt ends with status 200: `_request`
calls the part callback a second time, for the same part. The callback pushes
again: `etags` has two entries for one chunk and one part, and a second
completion request is made, listing two parts. -/
theorem etags_exceed_chunks :
    cbCalls (runEvents tenRetries (_request (partRequest fiveMiB "abc" 0)) lateTimeout).log
      = [partOk, partOk] ∧
    (chunkLoop fiveMiB.payload).length = 1 ∧
    (runReports (upload fiveMiB)
        [(.initiate, initiated), (.part 0, partOk), (.part 0, partOk)]).etags
      = [some "e1", some "e1"] ∧
    (runReports (upload fiveMiB)
        [(.initiate, initiated), (.part 0, partOk), (.part 0, partOk)]).requests
      = [initiateRequest fiveMiB, partRequest fiveMiB "abc" 0,
         completeRequest fiveMiB "abc" [some "e1"],
         completeRequest fiveMiB "abc" [some "e1", some "e1"]] ∧
    (runReports (upload fiveMiB)
        [(.initiate, initiated), (.part 0, partOk), (.part 0, partOk)]).crashed = false := by
  have hlen : 5 * 1024 * 1024 ≤ fiveMiB.payload.length := by
    rw [length_fiveMiB]
  have hN : (chunkLoop fiveMiB.payload).length = 1 := by
    rw [length_chunkLoop, length_fiveMiB]
    decide
  have hexec : cbCalls (runEvents tenRetries (_request (partRequest fiveMiB "abc" 0))
      lateTimeout).log = [partOk, partOk] := by
    decide
  have h1 : invoke (_multipartUpload fiveMiB) .initiate initiated
      = partState fiveMiB "abc" [] 0 := by
    rw [invoke_of_pending _ _ _ rfl]
    unfold initiated
    rw [deliver_initiate_success fiveMiB _ _ "abc" rfl (by rw [hN]; decide), encode_abc]
  have h2 : invoke (partState fiveMiB "abc" [] 0) (.part 0) partOk
      = completingState fiveMiB "abc" [some "e1"] := by
    rw [invoke_of_pending _ _ _ rfl]
    unfold partOk
    rw [deliver_last_part_success fiveMiB "abc" [] 0 _ _ (by rw [hN])]
    rfl
  have h3 : invoke (completingState fiveMiB "abc" [some "e1"]) (.part 0) partOk
      = finish { completingState fiveMiB "abc" [some "e1"] with
          etags := [some "e1", some "e1"] } := by
    have hc : 0 + 1 = (completingState fiveMiB "abc" [some "e1"]).chunks.length := by
      rw [chunks_completingState, hN]
    rw [invoke_part]
    unfold partOk
    rw [onPart_success_last _ 0 _ _ hc]
    rfl
  have hrun : runReports (upload fiveMiB)
      [(.initiate, initiated), (.part 0, partOk), (.part 0, partOk)]
      = finish { completingState fiveMiB "abc" [some "e1"] with
          etags := [some "e1", some "e1"] } := by
    rw [upload_eq_multipartUpload _ hlen, runReports_cons, h1, runReports_cons, h2,
      runReports_cons, h3, runReports_nil]
  rw [hrun]
  refine ⟨hexec, hN, rfl, ?_, rfl⟩
  show (initiateRequest fiveMiB ::
    (List.map (partRequest fiveMiB "abc") (List.range (chunkLoop fiveMiB.payload).length)
      ++ [completeRequest fiveMiB "abc" [some "e1"]]))
      ++ [completeRequest fiveMiB "abc" [some "e1", some "e1"]] = _
  rw [hN]
  rfl

end S3Upload
